import Mathlib

/-
Shallow embedding of src/static/paddlex/cv/nets/resnet.py (PaddleX static ResNet
backbone).  The Python code builds a tensor graph through paddle.fluid; here each
graph-building call is modelled as a pure function that returns the produced
tensor handle together with the list of graph nodes (events) it emits.  Tensor
handles are modelled by their channel count (`shape[1]`), the only shape
component the control flow of resnet.py inspects.  Mutable instance state
(`self.curr_stage`) is threaded explicitly: `ResNet.call` returns the updated
instance, mirroring the in-place mutation of `self`.
-/

/-- A tensor handle; resnet.py only ever reads `shape[1]` (the channel count). -/
structure Tensor where
  chan : Nat
deriving DecidableEq, Repr

/-- Which residual block builder `layers_cfg` selects. -/
inductive BlockKind where
  | basic
  | bottleneck
deriving DecidableEq, Repr

/-- Graph nodes emitted while building the network.  `convNorm` records one
`_conv_norm` call: the convolution (its weight ParamAttr learning rate, `none`
when the ParamAttr carries no learning_rate, i.e. the deformable-conv branch)
followed by its normalization layer (scale/bias learning rate `norm_lr` and
whether they are frozen).  `at_stage` is the value of `self.curr_stage` at
emission time and `phase` is the stage loop variable of `__call__` (`none` for
the stem). -/
inductive Event where
  | convNorm (name : String) (num_filters filter_size stride groups : Nat)
      (weight_lr : Option Rat) (norm_lr : Rat) (norm_frozen : Bool)
      (dcn : Bool) (at_stage : Nat) (phase : Option Nat)
  | convOffset (name : String) (filter_size stride : Nat)
  | pool (pool_type : String) (pool_size pool_stride pool_padding : Nat)
      (global_pooling : Bool)
  | block (kind : BlockKind) (stage block_idx num_filters stride : Nat)
      (is_first dcn gcb : Bool)
  | gcBlock (name : String)
  | nonlocalBlock (name : String)
  | freezeStage (stage : Nat)
  | fcLayer (size : Nat)
deriving DecidableEq, Repr

def Event.is_conv_norm : Event → Bool
  | .convNorm _ _ _ _ _ _ _ _ _ _ _ => true
  | _ => false

def Event.is_block : Event → Bool
  | .block _ _ _ _ _ _ _ _ => true
  | _ => false

def Event.is_gc : Event → Bool
  | .gcBlock _ => true
  | _ => false

def Event.is_nonlocal : Event → Bool
  | .nonlocalBlock _ => true
  | _ => false

def Event.is_freeze : Event → Bool
  | .freezeStage _ => true
  | _ => false

def Event.ev_phase : Event → Option Nat
  | .convNorm _ _ _ _ _ _ _ _ _ _ ph => ph
  | _ => none

def Event.ev_at_stage : Event → Nat
  | .convNorm _ _ _ _ _ _ _ _ _ s _ => s
  | _ => 0

def Event.ev_weight_lr : Event → Option Rat
  | .convNorm _ _ _ _ _ w _ _ _ _ _ => w
  | _ => none

def Event.ev_norm_lr : Event → Rat
  | .convNorm _ _ _ _ _ _ n _ _ _ _ => n
  | _ => 0

def Event.ev_norm_frozen : Event → Bool
  | .convNorm _ _ _ _ _ _ _ f _ _ _ => f
  | _ => false

def Event.ev_dcn : Event → Bool
  | .convNorm _ _ _ _ _ _ _ _ d _ _ => d
  | _ => false

def Event.ev_filter_size : Event → Nat
  | .convNorm _ _ k _ _ _ _ _ _ _ _ => k
  | _ => 0

def Event.ev_stride : Event → Nat
  | .convNorm _ _ _ s _ _ _ _ _ _ _ => s
  | _ => 0

def Event.ev_num_filters : Event → Nat
  | .convNorm _ f _ _ _ _ _ _ _ _ _ => f
  | _ => 0

def Event.ev_block_kind : Event → Option BlockKind
  | .block k _ _ _ _ _ _ _ => some k
  | _ => none

def Event.ev_block_filters : Event → Nat
  | .block _ _ _ f _ _ _ _ => f
  | _ => 0

/-- Modelled from the spec: the name adaptation helper
(`backbone_utils.NameAdapter`) is not part of src/; it is an abstract pure
policy turning structural positions into layer names.  All theorems hold for
every such policy. -/
structure NameAdapter where
  fix_conv_norm_name : String → String
  fix_shortcut_name : String → String
  fix_bottleneck_name : String → String × String × String × String
  fix_layer_warp_name : Nat → Nat → Nat → String
  fix_c1_stage_name : String

/-- Modelled from the spec: `add_gc_block` (global-context block, auxiliary
block module outside src/) emits one global-context graph node on the residual
branch and preserves the tensor shape. -/
def add_gc_block (input : Tensor) (name : String) : Tensor × List Event :=
  (input, [Event.gcBlock name])

/-- Modelled from the spec: `add_space_nonlocal` (non-local block module
outside src/) emits one non-local graph node with `dim_out` output channels. -/
def add_space_nonlocal (_input : Tensor) (_dim_in dim_out : Nat) (name : String)
    (_dim_inner : Nat) : Tensor × List Event :=
  ({ chan := dim_out }, [Event.nonlocalBlock name])

/-- Arguments of `ResNet.__init__`, with the Python default values. -/
structure Args where
  layers : Nat := 50
  freeze_at : Int := 0
  norm_type : String := "bn"
  freeze_norm : Bool := false
  norm_decay : Rat := 0
  variant : String := "b"
  feature_maps : List Nat := [2, 3, 4, 5]
  dcn_v2_stages : List Nat := []
  weight_prefix_name : String := ""
  nonlocal_stages : List Nat := []
  gcb_stages : List Nat := []
  num_classes : Option Nat := none
  lr_mult_list : List Rat := [1, 1, 1, 1, 1]
deriving DecidableEq, Repr

/-- A constructed ResNet instance (the attributes `__init__` stores on `self`).
`severed_head` models the attribute consulted through `getattr` (set only by
the `ResNetC5` subclass); `curr_stage` is the mutable stage counter. -/
structure ResNet where
  layers : Nat
  freeze_at : Int
  norm_type : String
  freeze_norm : Bool
  norm_decay : Rat
  variant : String
  feature_maps : List Nat
  dcn_v2_stages : List Nat
  prefix_name : String
  nonlocal_stages : List Nat
  gcb_stages : List Nat
  num_classes : Option Nat
  lr_mult_list : List Rat
  severed_head : Bool
  curr_stage : Nat
deriving DecidableEq, Repr

/-- `ResNet.__init__`: the assert chain, then storing the configuration.
Assert order follows the source. -/
def ResNet.init (a : Args) : Except String ResNet :=
  if a.layers ∈ ([18, 34, 50, 101, 152, 200] : List Nat) then
    if a.variant ∈ (["a", "b", "c", "d"] : List String) then
      if 0 ≤ a.freeze_at ∧ a.freeze_at ≤ 5 then
        if a.feature_maps.length > 0 then
          if a.norm_type ∈ (["bn", "sync_bn", "affine_channel"] : List String) then
            if ¬(a.nonlocal_stages.length > 0 ∧ a.layers < 50) then
              if a.lr_mult_list.length = 5 then
                .ok { layers := a.layers, freeze_at := a.freeze_at,
                      norm_type := a.norm_type, freeze_norm := a.freeze_norm,
                      norm_decay := a.norm_decay, variant := a.variant,
                      feature_maps := a.feature_maps,
                      dcn_v2_stages := a.dcn_v2_stages,
                      prefix_name := a.weight_prefix_name,
                      nonlocal_stages := a.nonlocal_stages,
                      gcb_stages := a.gcb_stages, num_classes := a.num_classes,
                      lr_mult_list := a.lr_mult_list,
                      severed_head := false, curr_stage := 0 }
              else .error "AssertionError: lr_mult_list length in ResNet must be 5"
            else .error "AssertionError: non-local is not supported for resnet18 or resnet34"
          else .error "AssertionError: norm_type"
        else .error "AssertionError: need one or more feature maps"
      else .error "AssertionError: freeze_at should be 0, 1, 2, 3, 4 or 5"
    else .error "AssertionError: invalid ResNet variant"
  else .error "AssertionError: layers not in [18, 34, 50, 101, 152, 200]"

/-- `self.layers_cfg`: layer count to (block repetition schedule, block kind). -/
def layers_cfg (layers : Nat) : Option (List Nat × BlockKind) :=
  if layers = 18 then some ([2, 2, 2, 2], .basic)
  else if layers = 34 then some ([3, 4, 6, 3], .basic)
  else if layers = 50 then some ([3, 4, 6, 3], .bottleneck)
  else if layers = 101 then some ([3, 4, 23, 3], .bottleneck)
  else if layers = 152 then some ([3, 8, 36, 3], .bottleneck)
  else if layers = 200 then some ([3, 12, 48, 3], .bottleneck)
  else none

/-- `self.stage_filters`. -/
def stage_filters : List Nat := [64, 128, 256, 512]

/-- `self.nonlocal_mod_cfg`. -/
def nonlocal_mod_cfg (layers : Nat) : Option Nat :=
  if layers = 50 then some 2
  else if layers = 101 then some 5
  else if layers = 152 then some 8
  else if layers = 200 then some 12
  else none

/-- `self.prefix_name + name if self.prefix_name != '' else name`. -/
def ResNet.pfx (r : ResNet) (name : String) : String :=
  if r.prefix_name ≠ "" then r.prefix_name ++ name else name

/-- Events emitted by one `_conv_norm` call once the `lr_mult` read succeeded.
The non-deformable branch attaches `learning_rate=lr_mult` to the conv weight
ParamAttr; the deformable branch first builds `_conv_offset` and creates the
deformable conv weight ParamAttr without a learning rate. -/
def conv_norm_events (curr_stage : Nat) (ph : Option Nat) (nm : String)
    (num_filters filter_size stride groups : Nat) (dcn_v2 : Bool)
    (lr_mult norm_lr : Rat) (norm_frozen : Bool) : List Event :=
  if ¬dcn_v2 then
    [Event.convNorm (nm ++ "_weights") num_filters filter_size stride groups
      (some lr_mult) norm_lr norm_frozen false curr_stage ph]
  else
    [Event.convOffset (nm ++ "_conv_offset") filter_size stride,
     Event.convNorm (nm ++ "_weights") num_filters filter_size stride groups
       none norm_lr norm_frozen true curr_stage ph]

/-- `ResNet._conv_norm`.  Reads `self.lr_mult_list[self.curr_stage]` (an
IndexError when out of range), then emits the conv and its norm layer.  The
norm scale/bias learning rate is 0 when `freeze_norm`, else `lr_mult`, and the
scale/bias `stop_gradient` flags are set exactly when `freeze_norm`. -/
def ResNet.conv_norm (r : ResNet) (ph : Option Nat) (_input : Tensor)
    (num_filters filter_size stride groups : Nat) (name : String)
    (dcn_v2 : Bool) : Except String (Tensor × List Event) :=
  match r.lr_mult_list[r.curr_stage]? with
  | none => .error "IndexError: lr_mult_list"
  | some lr_mult =>
    .ok ({ chan := num_filters },
      conv_norm_events r.curr_stage ph (r.pfx name) num_filters filter_size
        stride groups dcn_v2 lr_mult
        (if r.freeze_norm then 0 else lr_mult) r.freeze_norm)

/-- `ResNet._shortcut`.  `std_senet` is read through `getattr` and is never set
in this module, so only the non-senet paths are reachable. -/
def ResNet.shortcut (r : ResNet) (na : NameAdapter) (ph : Option Nat)
    (input : Tensor) (ch_out stride : Nat) (is_first : Bool) (name : String) :
    Except String (Tensor × List Event) :=
  let max_pooling_in_short_cut := r.variant = "d"
  let ch_in := input.chan
  let nm := na.fix_shortcut_name name
  if ch_in ≠ ch_out ∨ stride ≠ 1 ∨ (r.layers < 50 ∧ is_first) then
    if max_pooling_in_short_cut ∧ ¬is_first then
      match r.conv_norm ph { chan := ch_in } ch_out 1 1 1 nm false with
      | .error e => .error e
      | .ok (t, evs) => .ok (t, Event.pool "avg" 2 2 0 false :: evs)
    else
      r.conv_norm ph input ch_out 1 stride 1 nm false
  else
    .ok (input, [])

/-- `ResNet.bottleneck`.  `groups`/`group_width`/`std_senet` keep their
`getattr` defaults (1, -1, False) in this module, so `expand = 4`; the
squeeze-excitation hook `_squeeze_excitation` is likewise absent. -/
def ResNet.bottleneck (r : ResNet) (na : NameAdapter) (ph : Option Nat)
    (input : Tensor) (num_filters stride : Nat) (is_first : Bool)
    (name : String) (dcn_v2 gcb : Bool) (gcb_name : String) :
    Except String (Tensor × List Event) :=
  let stride1 := if r.variant = "a" then stride else 1
  let stride2 := if r.variant = "a" then 1 else stride
  let expand := 4
  let ns := na.fix_bottleneck_name name
  match r.conv_norm ph input num_filters 1 stride1 1 ns.1 false with
  | .error e => .error e
  | .ok (r1, evs1) =>
    match r.conv_norm ph r1 num_filters 3 stride2 1 ns.2.1 dcn_v2 with
    | .error e => .error e
    | .ok (r2, evs2) =>
      match r.conv_norm ph r2 (num_filters * expand) 1 1 1 ns.2.2.1 false with
      | .error e => .error e
      | .ok (residual, evs3) =>
        match r.shortcut na ph input (num_filters * expand) stride is_first ns.2.2.2 with
        | .error e => .error e
        | .ok (_short, sevs) =>
          let rg := if gcb then add_gc_block residual gcb_name else (residual, [])
          .ok ({ chan := rg.1.chan }, evs1 ++ evs2 ++ evs3 ++ sevs ++ rg.2)

/-- `ResNet.basicblock`. -/
def ResNet.basicblock (r : ResNet) (na : NameAdapter) (ph : Option Nat)
    (input : Tensor) (num_filters stride : Nat) (is_first : Bool)
    (name : String) (dcn_v2 gcb : Bool) (_gcb_name : String) :
    Except String (Tensor × List Event) :=
  if dcn_v2 then .error "AssertionError: Not implemented yet."
  else if gcb then .error "AssertionError: Not implemented yet."
  else
    match r.conv_norm ph input num_filters 3 stride 1 (name ++ "_branch2a") false with
    | .error e => .error e
    | .ok (conv0, evs0) =>
      match r.conv_norm ph conv0 num_filters 3 1 1 (name ++ "_branch2b") false with
      | .error e => .error e
      | .ok (conv1, evs1) =>
        match r.shortcut na ph input num_filters stride is_first (name ++ "_branch1") with
        | .error e => .error e
        | .ok (_short, sevs) => .ok ({ chan := conv1.chan }, evs0 ++ evs1 ++ sevs)

/-- Dispatch through the block function stored in `layers_cfg`. -/
def ResNet.block_func (r : ResNet) (na : NameAdapter) (ph : Option Nat)
    (kind : BlockKind) (input : Tensor) (num_filters stride : Nat)
    (is_first : Bool) (name : String) (dcn_v2 gcb : Bool) (gcb_name : String) :
    Except String (Tensor × List Event) :=
  match kind with
  | .basic => r.basicblock na ph input num_filters stride is_first name dcn_v2 gcb gcb_name
  | .bottleneck => r.bottleneck na ph input num_filters stride is_first name dcn_v2 gcb gcb_name

/-- The `for i in range(count)` loop body of `ResNet.layer_warp`, over the
remaining block indices. -/
def ResNet.warp_blocks (r : ResNet) (na : NameAdapter) (ph : Option Nat)
    (stage_num count ch_out : Nat) (kind : BlockKind) (dcn_v2 : Bool)
    (nonlocal_mod : Nat) : List Nat → Tensor → Except String (Tensor × List Event)
  | [], conv => .ok (conv, [])
  | i :: rest, conv =>
    let conv_name := na.fix_layer_warp_name stage_num count i
    let is_first :=
      if r.layers < 50 then (i = 0 ∧ stage_num = 2) else (stage_num = 2)
    let gcb := stage_num ∈ r.gcb_stages
    let gcb_name := "gcb_res" ++ toString stage_num ++ "_b" ++ toString i
    let stride := if i = 0 ∧ stage_num ≠ 2 then 2 else 1
    let blockEv := Event.block kind stage_num i ch_out stride
      (decide is_first) dcn_v2 (decide gcb)
    match r.block_func na ph kind conv ch_out stride (decide is_first)
        conv_name dcn_v2 (decide gcb) gcb_name with
    | .error e => .error e
    | .ok (conv1, evs1) =>
      let nl :=
        if i % nonlocal_mod = nonlocal_mod - 1 then
          add_space_nonlocal conv1 conv1.chan conv1.chan
            ("nonlocal_conv" ++ toString stage_num ++ "_" ++ toString i)
            (conv1.chan / 2)
        else (conv1, [])
      match r.warp_blocks na ph stage_num count ch_out kind dcn_v2 nonlocal_mod
          rest nl.1 with
      | .error e => .error e
      | .ok (out, evs3) => .ok (out, blockEv :: (evs1 ++ nl.2 ++ evs3))

/-- `ResNet.layer_warp`. -/
def ResNet.layer_warp (r : ResNet) (na : NameAdapter) (ph : Option Nat)
    (input : Tensor) (stage_num : Nat) : Except String (Tensor × List Event) :=
  if stage_num ∈ ([2, 3, 4, 5] : List Nat) then
    match layers_cfg r.layers with
    | none => .error "KeyError: layers_cfg"
    | some (stages, kind) =>
      let count := stages.getD (stage_num - 2) 0
      let ch_out := stage_filters.getD (stage_num - 2) 0
      let dcn_v2 := stage_num ∈ r.dcn_v2_stages
      if stage_num ∈ r.nonlocal_stages then
        if stage_num = 4 then
          match nonlocal_mod_cfg r.layers with
          | none => .error "KeyError: nonlocal_mod_cfg"
          | some m =>
            r.warp_blocks na ph stage_num count ch_out kind (decide dcn_v2) m
              (List.range count) input
        else
          r.warp_blocks na ph stage_num count ch_out kind (decide dcn_v2) 2
            (List.range count) input
      else
        r.warp_blocks na ph stage_num count ch_out kind (decide dcn_v2) 1000
          (List.range count) input
  else .error "AssertionError: stage_num"

/-- The sequential `_conv_norm` applications of `ResNet.c1_stage` over its
`conv_def` list. -/
def ResNet.c1_convs (r : ResNet) :
    List (Nat × Nat × Nat × String) → Tensor → List Event →
    Except String (Tensor × List Event)
  | [], t, acc => .ok (t, acc)
  | (c, k, s, nm) :: rest, t, acc =>
    match r.conv_norm none t c k s 1 nm false with
    | .error e => .error e
    | .ok (t1, e1) => r.c1_convs rest t1 (acc ++ e1)

/-- `ResNet.c1_stage`. -/
def ResNet.c1_stage (r : ResNet) (na : NameAdapter) (input : Tensor) :
    Except String (Tensor × List Event) :=
  let out_chan := 64
  let conv1_name := na.fix_c1_stage_name
  let conv_def : List (Nat × Nat × Nat × String) :=
    if r.variant = "c" ∨ r.variant = "d" then
      [(out_chan / 2, 3, 2, "conv1_1"), (out_chan / 2, 3, 1, "conv1_2"),
       (out_chan, 3, 1, "conv1_3")]
    else
      [(out_chan, 7, 2, conv1_name)]
  match r.c1_convs conv_def input [] with
  | .error e => .error e
  | .ok (t, evs) => .ok (t, evs ++ [Event.pool "max" 3 2 1 false])

/-- The stage loop of `ResNet.__call__`: per stage, `self.curr_stage += 1`,
`layer_warp`, endpoint collection, and the `freeze_at` stop-gradient marker. -/
def ResNet.call_stages (r : ResNet) (na : NameAdapter) :
    List Nat → Tensor → List Tensor →
    Except String (List Tensor × Tensor × Nat × List Event)
  | [], res, endpoints => .ok (endpoints, res, r.curr_stage, [])
  | i :: rest, res, endpoints =>
    let r1 : ResNet := { r with curr_stage := r.curr_stage + 1 }
    match r1.layer_warp na (some i) res i with
    | .error e => .error e
    | .ok (res1, evs1) =>
      let endpoints1 :=
        if i ∈ r.feature_maps then endpoints ++ [res1] else endpoints
      let freezeEvs :=
        if (i : Int) ≤ r.freeze_at then [Event.freezeStage i] else []
      match r1.call_stages na rest res1 endpoints1 with
      | .error e => .error e
      | .ok (eps, out, curr, evs2) => .ok (eps, out, curr, evs1 ++ freezeEvs ++ evs2)

/-- The `OrderedDict` comprehension: key `res{feature_maps[idx]}_sum` for the
idx-th endpoint (an IndexError when `feature_maps` is too short). -/
def enum_pairs (fms : List Nat) : List Tensor → Nat →
    Except String (List (String × Tensor))
  | [], _ => .ok []
  | t :: ts, idx =>
    match fms[idx]? with
    | none => .error "IndexError: feature_maps"
    | some f =>
      match enum_pairs fms ts (idx + 1) with
      | .error e => .error e
      | .ok rest => .ok (("res" ++ toString f ++ "_sum", t) :: rest)

/-- Python `OrderedDict` construction from key/value pairs: first-insertion
order, last value wins on duplicate keys. -/
def ordered_dict (l : List (String × Tensor)) : List (String × Tensor) :=
  l.foldl
    (fun acc kv =>
      if acc.any (fun p => p.1 = kv.1) then
        acc.map (fun p => if p.1 = kv.1 then (p.1, kv.2) else p)
      else acc ++ [kv])
    []

/-- The result of `ResNet.__call__`: classification logits, or the ordered
mapping of named endpoints. -/
inductive CallOut where
  | logits (t : Tensor)
  | endpoints (m : List (String × Tensor))
deriving DecidableEq, Repr

/-- `ResNet.__call__`.  Returns the produced output, the updated instance
(with its advanced `curr_stage`), and the emitted graph nodes. -/
def ResNet.call (r : ResNet) (na : NameAdapter) (input : Tensor) :
    Except String (CallOut × ResNet × List Event) :=
  if r.feature_maps.all (fun f => f ∈ ([1, 2, 3, 4, 5] : List Nat)) then
    let stem : Except String (Tensor × List Nat × List Event) :=
      if r.severed_head then .ok (input, r.feature_maps, [])
      else
        match r.c1_stage na input with
        | .error e => .error e
        | .ok (t, e) =>
          match r.feature_maps.max? with
          | none => .error "ValueError: max of empty sequence"
          | some m => .ok (t, List.range' 2 (m + 1 - 2), e)
    match stem with
    | .error e => .error e
    | .ok (res0, fm, evs0) =>
      match r.call_stages na fm res0 [] with
      | .error e => .error e
      | .ok (endpoints, _res, curr, evs1) =>
        let r' : ResNet := { r with curr_stage := curr }
        match r.num_classes with
        | some n =>
          .ok (.logits { chan := n }, r',
            evs0 ++ evs1 ++ [Event.pool "avg" 0 1 0 true, Event.fcLayer n])
        | none =>
          match enum_pairs r.feature_maps endpoints 0 with
          | .error e => .error e
          | .ok pairs => .ok (.endpoints (ordered_dict pairs), r', evs0 ++ evs1)
  else .error "AssertionError: feature maps not in [1, 2, 3, 4, 5]"

/-- `ResNetC5.__init__`: fixed defaults, then `severed_head = True`. -/
def ResNetC5.init (layers : Nat := 50) (freeze_at : Int := 2)
    (norm_type : String := "affine_channel") (freeze_norm : Bool := true)
    (norm_decay : Rat := 0) (variant : String := "b")
    (feature_maps : List Nat := [5]) (weight_prefix_name : String := "") :
    Except String ResNet :=
  match ResNet.init
    { layers := layers, freeze_at := freeze_at, norm_type := norm_type,
      freeze_norm := freeze_norm, norm_decay := norm_decay,
      variant := variant, feature_maps := feature_maps,
      weight_prefix_name := weight_prefix_name } with
  | .error e => .error e
  | .ok r => .ok { r with severed_head := true }

/-! Derived observers and basic facts. -/

/-- Channel multiplier of a block kind (`expand` in `bottleneck`; a basic
block keeps `num_filters` channels). -/
def expand_of : BlockKind → Nat
  | .basic => 1
  | .bottleneck => 4

/-- Output channel count of a built stage. -/
def stage_out_chan (layers stage : Nat) : Nat :=
  match layers_cfg layers with
  | some (_, kind) => stage_filters.getD (stage - 2) 0 * expand_of kind
  | none => 0

/-- The configuration-validity conditions listed by the spec, in the order the
constructor checks them. -/
def valid_args (a : Args) : Prop :=
  a.layers ∈ ([18, 34, 50, 101, 152, 200] : List Nat) ∧
  a.variant ∈ (["a", "b", "c", "d"] : List String) ∧
  (0 ≤ a.freeze_at ∧ a.freeze_at ≤ 5) ∧
  a.feature_maps ≠ [] ∧
  a.norm_type ∈ (["bn", "sync_bn", "affine_channel"] : List String) ∧
  a.lr_mult_list.length = 5 ∧
  ¬(a.nonlocal_stages ≠ [] ∧ a.layers < 50)

lemma layers_cfg_sched {L : Nat} {p : List Nat × BlockKind}
    (h : layers_cfg L = some p) :
    p.1.length = 4 ∧ (∀ j < 4, 1 ≤ p.1.getD j 0) ∧ (∀ j < 4, p.1.getD j 0 ≤ 48) := by
  unfold layers_cfg at h
  repeat' split at h
  all_goals simp_all
  all_goals subst h
  all_goals decide

/-- C3: construction fails exactly on an invalid configuration: layers outside
18/34/50/101/152/200, an unknown variant, `freeze_at` outside 0..5, empty
`feature_maps`, an unknown `norm_type`, an `lr_mult_list` whose length is not
5, or non-empty `nonlocal_stages` with fewer than 50 layers; every
configuration passing all checks constructs successfully. -/
theorem resnet_init_ok_iff_valid (a : Args) :
    (∃ r, ResNet.init a = Except.ok r) ↔ valid_args a := by
  unfold ResNet.init valid_args
  repeat' split
  all_goals simp_all [List.length_pos]

/-- Events that only the `__call__` stage loop itself can emit are absent from
the builders below. -/
def NonLoopEv (ev : Event) : Prop :=
  ev.is_block = false ∧ ev.is_nonlocal = false ∧ ev.is_freeze = false

/-- Facts tying one emitted `_conv_norm` node to the instance state it was
emitted under: the recorded stage-loop phase, the `curr_stage` read, the weight
learning rate taken from `lr_mult_list[curr_stage]` on the non-deformable
branch, and the freeze-norm wiring of the scale/bias learning rate. -/
def ConvEvFacts (c : Nat) (ph : Option Nat) (lrl : List Rat) (fz : Bool)
    (ev : Event) : Prop :=
  ev.ev_phase = ph ∧ ev.ev_at_stage = c ∧
  (ev.ev_dcn = false → ev.ev_weight_lr = lrl[c]?) ∧
  ev.ev_norm_frozen = fz ∧ (fz = true → ev.ev_norm_lr = 0)

lemma conv_norm_ok {r : ResNet} {ph : Option Nat} {input : Tensor}
    {nf ks s g : Nat} {nm : String} {d : Bool} {p : Tensor × List Event}
    (h : r.conv_norm ph input nf ks s g nm d = .ok p) :
    ∃ lr, r.lr_mult_list[r.curr_stage]? = some lr ∧
      p = ({ chan := nf },
        conv_norm_events r.curr_stage ph (r.pfx nm) nf ks s g d
          lr (if r.freeze_norm then 0 else lr) r.freeze_norm) := by
  unfold ResNet.conv_norm at h
  split at h
  · exact absurd h (by simp)
  · refine ⟨_, by assumption, ?_⟩
    injection h with h
    exact h.symm

lemma conv_norm_events_facts {c : Nat} {ph : Option Nat} {nm : String}
    {nf ks s g : Nat} {d : Bool} {lr nlr : Rat} {nfz : Bool} :
    ∀ ev ∈ conv_norm_events c ph nm nf ks s g d lr nlr nfz,
      NonLoopEv ev ∧ ev.is_gc = false ∧
      (ev.is_conv_norm = true →
        ev.ev_phase = ph ∧ ev.ev_at_stage = c ∧ ev.ev_num_filters = nf ∧
        ev.ev_filter_size = ks ∧ ev.ev_stride = s ∧ ev.ev_dcn = d ∧
        (ev.ev_dcn = false → ev.ev_weight_lr = some lr) ∧
        ev.ev_norm_lr = nlr ∧ ev.ev_norm_frozen = nfz) := by
  intro ev hev
  unfold conv_norm_events at hev
  by_cases hd : d <;> simp [hd] at hev
  · rcases hev with h | h <;> subst h <;>
      simp [NonLoopEv, Event.is_block, Event.is_nonlocal, Event.is_freeze,
        Event.is_gc, Event.is_conv_norm, Event.ev_phase, Event.ev_at_stage,
        Event.ev_num_filters, Event.ev_filter_size, Event.ev_stride,
        Event.ev_dcn, Event.ev_weight_lr, Event.ev_norm_lr,
        Event.ev_norm_frozen, hd]
  · subst hev
    simp [NonLoopEv, Event.is_block, Event.is_nonlocal, Event.is_freeze,
      Event.is_gc, Event.is_conv_norm, Event.ev_phase, Event.ev_at_stage,
      Event.ev_num_filters, Event.ev_filter_size, Event.ev_stride,
      Event.ev_dcn, Event.ev_weight_lr, Event.ev_norm_lr, Event.ev_norm_frozen,
      hd]

lemma conv_norm_evs_facts {r : ResNet} {ph : Option Nat} {input t : Tensor}
    {nf ks s g : Nat} {nm : String} {d : Bool} {evs : List Event}
    (h : r.conv_norm ph input nf ks s g nm d = .ok (t, evs)) :
    t = { chan := nf } ∧
    ∀ ev ∈ evs, NonLoopEv ev ∧ ev.is_gc = false ∧
      (ev.is_conv_norm = true →
        ConvEvFacts r.curr_stage ph r.lr_mult_list r.freeze_norm ev ∧
        ev.ev_dcn = d ∧ ev.ev_filter_size = ks ∧ ev.ev_stride = s ∧
        ev.ev_num_filters = nf) := by
  obtain ⟨lr, hlr, hp⟩ := conv_norm_ok h
  simp only [Prod.mk.injEq] at hp
  obtain ⟨ht, hevs⟩ := hp
  subst ht hevs
  refine ⟨rfl, fun ev hev => ?_⟩
  obtain ⟨h1, h2, h3⟩ := conv_norm_events_facts ev hev
  refine ⟨h1, h2, fun hcn => ?_⟩
  obtain ⟨f1, f2, f3, f4, f5, f6, f7, f8, f9⟩ := h3 hcn
  refine ⟨⟨f1, f2, ?_, f9, ?_⟩, f6, f4, f5, f3⟩
  · intro hd
    rw [f7 hd, hlr]
  · intro hfz
    rw [f8, hfz]
    simp

lemma shortcut_facts {r : ResNet} {na : NameAdapter} {ph : Option Nat}
    {input t : Tensor} {ch_out stride : Nat} {is_first : Bool} {nm : String}
    {evs : List Event}
    (h : r.shortcut na ph input ch_out stride is_first nm = .ok (t, evs)) :
    ∀ ev ∈ evs, NonLoopEv ev ∧ ev.is_gc = false ∧
      (ev.is_conv_norm = true →
        ConvEvFacts r.curr_stage ph r.lr_mult_list r.freeze_norm ev ∧
        ev.ev_dcn = false ∧ ev.ev_filter_size = 1 ∧
        ev.ev_num_filters = ch_out) := by
  unfold ResNet.shortcut at h
  dsimp only at h
  split at h
  · split at h
    · split at h
      · exact absurd h (by simp)
      · rename_i p heq
        injection h with h
        injection h with h1 h2
        subst h2
        intro ev hev
        rcases List.mem_cons.1 hev with hp | hp
        · subst hp
          exact ⟨⟨rfl, rfl, rfl⟩, rfl,
            by intro hc; exact absurd hc (by simp [Event.is_conv_norm])⟩
        · obtain ⟨g1, g2, g3⟩ := (conv_norm_evs_facts heq).2 ev hp
          exact ⟨g1, g2, fun hc =>
            ⟨(g3 hc).1, (g3 hc).2.1, (g3 hc).2.2.1, (g3 hc).2.2.2.2⟩⟩
    · intro ev hev
      obtain ⟨g1, g2, g3⟩ := (conv_norm_evs_facts h).2 ev hev
      exact ⟨g1, g2, fun hc =>
        ⟨(g3 hc).1, (g3 hc).2.1, (g3 hc).2.2.1, (g3 hc).2.2.2.2⟩⟩
  · injection h with h
    injection h with h1 h2
    subst h2
    intro ev hev
    exact absurd hev (List.not_mem_nil ev)

lemma filter_nil_of_false {α : Type} {p : α → Bool} {l : List α}
    (h : ∀ ev ∈ l, p ev = false) : l.filter p = [] := by
  induction l with
  | nil => rfl
  | cons a l ih =>
    rw [List.filter_cons]
    simp only [h a (by simp), Bool.false_eq_true, if_false]
    exact ih fun ev hev => h ev (by simp [hev])

lemma countP_zero_of_false {α : Type} {p : α → Bool} {l : List α}
    (h : ∀ ev ∈ l, p ev = false) : l.countP p = 0 := by
  induction l with
  | nil => rfl
  | cons a l ih =>
    rw [List.countP_cons]
    simp only [h a (by simp), Bool.false_eq_true, if_false]
    exact ih fun ev hev => h ev (by simp [hev])

lemma bottleneck_facts {r : ResNet} {na : NameAdapter} {ph : Option Nat}
    {input t : Tensor} {nf stride : Nat} {is_first : Bool} {name : String}
    {dcn gcb : Bool} {gcbn : String} {evs : List Event}
    (h : r.bottleneck na ph input nf stride is_first name dcn gcb gcbn = .ok (t, evs)) :
    t = { chan := nf * 4 } ∧
    evs.filter Event.is_gc = (if gcb then [Event.gcBlock gcbn] else []) ∧
    ∀ ev ∈ evs, NonLoopEv ev ∧
      (ev.is_conv_norm = true →
        ConvEvFacts r.curr_stage ph r.lr_mult_list r.freeze_norm ev ∧
        ev.ev_dcn = (dcn && decide (ev.ev_filter_size = 3))) := by
  unfold ResNet.bottleneck at h
  dsimp only at h
  split at h
  · exact absurd h (by simp)
  · rename_i t1 e1 heq1
    split at h
    · exact absurd h (by simp)
    · rename_i t2 e2 heq2
      split at h
      · exact absurd h (by simp)
      · rename_i t3 e3 heq3
        split at h
        · exact absurd h (by simp)
        · rename_i t4 e4 heq4
          injection h with h
          injection h with h1 h2
          subst h2
          obtain ⟨hres, f3⟩ := conv_norm_evs_facts heq3
          have hgc1 : (if gcb = true then add_gc_block t3 gcbn
              else (t3, [])).1 = t3 := by
            by_cases hg : gcb = true <;> simp [hg, add_gc_block]
          have hgc2 : (if gcb = true then add_gc_block t3 gcbn
              else (t3, [])).2 =
              (if gcb = true then [Event.gcBlock gcbn] else []) := by
            by_cases hg : gcb = true <;> simp [hg, add_gc_block]
          have ht : t = { chan := nf * 4 } := by
            rw [← h1, hgc1, hres]
          obtain ⟨_, f1⟩ := conv_norm_evs_facts heq1
          obtain ⟨_, f2⟩ := conv_norm_evs_facts heq2
          have f4 := shortcut_facts heq4
          have convs_no_gc : ∀ ev ∈ e1 ++ e2 ++ e3 ++ e4,
              Event.is_gc ev = false := by
            intro ev hev
            rcases List.mem_append.1 hev with hev | hev
            · rcases List.mem_append.1 hev with hev | hev
              · rcases List.mem_append.1 hev with hev | hev
                · exact (f1 ev hev).2.1
                · exact (f2 ev hev).2.1
              · exact (f3 ev hev).2.1
            · exact (f4 ev hev).2.1
          have hnil : (e1 ++ e2 ++ e3 ++ e4).filter Event.is_gc = [] :=
            filter_nil_of_false convs_no_gc
          refine ⟨ht, ?_, ?_⟩
          · rw [hgc2, List.filter_append, hnil]
            by_cases hg : gcb = true <;> simp [hg, List.filter, Event.is_gc]
          · intro ev hev
            rw [hgc2] at hev
            rcases List.mem_append.1 hev with hev | hev
            · rcases List.mem_append.1 hev with hev | hev
              · rcases List.mem_append.1 hev with hev | hev
                · rcases List.mem_append.1 hev with hev | hev
                  · refine ⟨(f1 ev hev).1, fun hc => ?_⟩
                    obtain ⟨c1, c2, c3, _, _⟩ := (f1 ev hev).2.2 hc
                    exact ⟨c1, by rw [c2, c3]; simp⟩
                  · refine ⟨(f2 ev hev).1, fun hc => ?_⟩
                    obtain ⟨c1, c2, c3, _, _⟩ := (f2 ev hev).2.2 hc
                    exact ⟨c1, by rw [c2, c3]; simp⟩
                · refine ⟨(f3 ev hev).1, fun hc => ?_⟩
                  obtain ⟨c1, c2, c3, _, _⟩ := (f3 ev hev).2.2 hc
                  exact ⟨c1, by rw [c2, c3]; simp⟩
              · refine ⟨(f4 ev hev).1, fun hc => ?_⟩
                obtain ⟨c1, c2, c3, _⟩ := (f4 ev hev).2.2 hc
                exact ⟨c1, by rw [c2, c3]; simp⟩
            · have hev2 : ev = Event.gcBlock gcbn := by
                by_cases hg : gcb = true
                · simpa [hg] using hev
                · simp [hg] at hev
              subst hev2
              exact ⟨⟨rfl, rfl, rfl⟩,
                by intro hc; exact absurd hc (by simp [Event.is_conv_norm])⟩

lemma basicblock_facts {r : ResNet} {na : NameAdapter} {ph : Option Nat}
    {input t : Tensor} {nf stride : Nat} {is_first : Bool} {name : String}
    {dcn gcb : Bool} {gcbn : String} {evs : List Event}
    (h : r.basicblock na ph input nf stride is_first name dcn gcb gcbn = .ok (t, evs)) :
    dcn = false ∧ gcb = false ∧ t = { chan := nf } ∧
    evs.filter Event.is_gc = (if gcb then [Event.gcBlock gcbn] else []) ∧
    ∀ ev ∈ evs, NonLoopEv ev ∧
      (ev.is_conv_norm = true →
        ConvEvFacts r.curr_stage ph r.lr_mult_list r.freeze_norm ev ∧
        ev.ev_dcn = (dcn && decide (ev.ev_filter_size = 3))) := by
  unfold ResNet.basicblock at h
  split at h
  · exact absurd h (by simp)
  · split at h
    · exact absurd h (by simp)
    · rename_i hdcn hgcb
      split at h
      · exact absurd h (by simp)
      · rename_i t0 e0 heq0
        split at h
        · exact absurd h (by simp)
        · rename_i t1 e1 heq1
          split at h
          · exact absurd h (by simp)
          · rename_i t2 e2 heq2
            injection h with h
            injection h with h1 h2
            subst h2
            obtain ⟨hc1, f1⟩ := conv_norm_evs_facts heq1
            obtain ⟨_, f0⟩ := conv_norm_evs_facts heq0
            have f2 := shortcut_facts heq2
            have hdcn' : dcn = false := by
              by_cases hd : dcn = true
              · exact absurd hd hdcn
              · simpa using hd
            have hgcb' : gcb = false := by
              by_cases hgg : gcb = true
              · exact absurd hgg hgcb
              · simpa using hgg
            refine ⟨hdcn', hgcb', by rw [← h1, hc1], ?_, ?_⟩
            · rw [hgcb']
              simp only [Bool.false_eq_true, if_false]
              refine filter_nil_of_false fun ev hev => ?_
              rcases List.mem_append.1 hev with hev | hev
              · rcases List.mem_append.1 hev with hev | hev
                · exact (f0 ev hev).2.1
                · exact (f1 ev hev).2.1
              · exact (f2 ev hev).2.1
            · intro ev hev
              subst hdcn'
              rcases List.mem_append.1 hev with hev | hev
              · rcases List.mem_append.1 hev with hev | hev
                · refine ⟨(f0 ev hev).1, fun hc => ?_⟩
                  obtain ⟨c1, c2, _, _, _⟩ := (f0 ev hev).2.2 hc
                  exact ⟨c1, by rw [c2]; simp⟩
                · refine ⟨(f1 ev hev).1, fun hc => ?_⟩
                  obtain ⟨c1, c2, _, _, _⟩ := (f1 ev hev).2.2 hc
                  exact ⟨c1, by rw [c2]; simp⟩
              · refine ⟨(f2 ev hev).1, fun hc => ?_⟩
                obtain ⟨c1, c2, _, _⟩ := (f2 ev hev).2.2 hc
                exact ⟨c1, by rw [c2]; simp⟩

lemma block_func_facts {r : ResNet} {na : NameAdapter} {ph : Option Nat}
    {kind : BlockKind} {input t : Tensor} {nf stride : Nat} {is_first : Bool}
    {name : String} {dcn gcb : Bool} {gcbn : String} {evs : List Event}
    (h : r.block_func na ph kind input nf stride is_first name dcn gcb gcbn = .ok (t, evs)) :
    t = { chan := nf * expand_of kind } ∧
    evs.filter Event.is_gc = (if gcb then [Event.gcBlock gcbn] else []) ∧
    (∀ ev ∈ evs, NonLoopEv ev ∧
      (ev.is_conv_norm = true →
        ConvEvFacts r.curr_stage ph r.lr_mult_list r.freeze_norm ev ∧
        ev.ev_dcn = (dcn && decide (ev.ev_filter_size = 3)))) ∧
    (kind = .basic → dcn = false ∧ gcb = false) := by
  cases kind with
  | basic =>
    obtain ⟨hd, hg, ht, hf, hev⟩ := basicblock_facts h
    exact ⟨by rw [ht]; simp [expand_of], hf, hev, fun _ => ⟨hd, hg⟩⟩
  | bottleneck =>
    obtain ⟨ht, hf, hev⟩ := bottleneck_facts h
    exact ⟨by rw [ht]; simp [expand_of], hf, hev, by intro hk; exact absurd hk (by simp)⟩

lemma warp_blocks_facts {r : ResNet} {na : NameAdapter} {ph : Option Nat}
    {stage count ch_out : Nat} {kind : BlockKind} {dcn : Bool} {nlm : Nat} :
    ∀ (idxs : List Nat) (conv out : Tensor) (evs : List Event),
    r.warp_blocks na ph stage count ch_out kind dcn nlm idxs conv = .ok (out, evs) →
    evs.countP Event.is_block = idxs.length ∧
    (∀ ev ∈ evs, ev.is_block = true →
      ev.ev_block_kind = some kind ∧ ev.ev_block_filters = ch_out) ∧
    evs.filter Event.is_nonlocal =
      (idxs.filter (fun j => j % nlm = nlm - 1)).map
        (fun j => Event.nonlocalBlock
          ("nonlocal_conv" ++ toString stage ++ "_" ++ toString j)) ∧
    evs.filter Event.is_gc =
      (if stage ∈ r.gcb_stages then
        idxs.map (fun j => Event.gcBlock
          ("gcb_res" ++ toString stage ++ "_b" ++ toString j))
      else []) ∧
    (∀ ev ∈ evs, ev.is_conv_norm = true →
      ConvEvFacts r.curr_stage ph r.lr_mult_list r.freeze_norm ev ∧
      ev.ev_dcn = (dcn && decide (ev.ev_filter_size = 3))) ∧
    (∀ ev ∈ evs, ev.is_freeze = false) ∧
    (kind = .basic → idxs ≠ [] → dcn = false ∧ stage ∉ r.gcb_stages) ∧
    (idxs = [] → out = conv ∧ evs = []) ∧
    (idxs ≠ [] → out = { chan := ch_out * expand_of kind }) := by
  intro idxs
  induction idxs with
  | nil =>
    intro conv out evs h
    simp only [ResNet.warp_blocks] at h
    injection h with h
    injection h with h1 h2
    subst h1
    subst h2
    refine ⟨by simp, by simp, by simp, by simp, by simp, by simp,
      fun _ hne => absurd rfl hne, fun _ => ⟨rfl, rfl⟩,
      fun hne => absurd rfl hne⟩
  | cons i rest ih =>
    intro conv out evs h
    simp only [ResNet.warp_blocks] at h
    split at h
    · exact absurd h (by simp)
    · rename_i c1 e1 heqb
      split at h
      · exact absurd h (by simp)
      · rename_i o2 e3 heqr
        injection h with h
        injection h with h1 h2
        subst h1
        subst h2
        obtain ⟨bf1, bf2, bf3, bf4⟩ := block_func_facts heqb
        obtain ⟨r1, r2, r3, r4, r5, r6, r7, r8, r9⟩ := ih _ _ _ heqr
        set nlexp := (if i % nlm = nlm - 1 then
          add_space_nonlocal c1 c1.chan c1.chan
            ("nonlocal_conv" ++ toString stage ++ "_" ++ toString i)
            (c1.chan / 2)
          else (c1, [])) with hnldef
        have hnl1 : nlexp.1 = c1 := by
          by_cases hc : i % nlm = nlm - 1 <;> simp [hnldef, hc, add_space_nonlocal]
        have hnl2 : nlexp.2 = (if i % nlm = nlm - 1 then
            [Event.nonlocalBlock
              ("nonlocal_conv" ++ toString stage ++ "_" ++ toString i)]
          else []) := by
          by_cases hc : i % nlm = nlm - 1 <;> simp [hnldef, hc, add_space_nonlocal]
        have hnl2f : ∀ ev ∈ nlexp.2, ev.is_nonlocal = true ∧ ev.is_block = false ∧
            ev.is_gc = false ∧ ev.is_conv_norm = false ∧ ev.is_freeze = false := by
          rw [hnl2]
          intro ev hev
          by_cases hc : i % nlm = nlm - 1 <;> simp [hc] at hev
          · subst hev
            exact ⟨rfl, rfl, rfl, rfl, rfl⟩
        refine ⟨?_, ?_, ?_, ?_, ?_, ?_, ?_, ?_, ?_⟩
        · rw [List.countP_cons]
          rw [List.countP_append, List.countP_append]
          rw [countP_zero_of_false (fun ev hev => (bf3 ev hev).1.1)]
          rw [countP_zero_of_false (fun ev hev => (hnl2f ev hev).2.1)]
          simp [r1, Event.is_block]
        · intro ev hev hb
          rcases List.mem_cons.1 hev with hev | hev
          · subst hev
            exact ⟨rfl, rfl⟩
          · rcases List.mem_append.1 hev with hev | hev
            · rcases List.mem_append.1 hev with hev | hev
              · exact absurd hb (by simp [(bf3 ev hev).1.1])
              · exact absurd hb (by simp [(hnl2f ev hev).2.1])
            · exact r2 ev hev hb
        · rw [List.filter_cons]
          simp only [Event.is_nonlocal, Bool.false_eq_true, if_false]
          rw [List.filter_append, List.filter_append]
          rw [filter_nil_of_false (fun ev hev => (bf3 ev hev).1.2.1)]
          have : nlexp.2.filter Event.is_nonlocal = nlexp.2 := by
            rw [hnl2]
            by_cases hc : i % nlm = nlm - 1 <;> simp [hc, Event.is_nonlocal]
          rw [this, r3, hnl2, List.filter_cons]
          by_cases hc : i % nlm = nlm - 1 <;> simp [hc]
        · rw [List.filter_cons]
          simp only [Event.is_gc, Bool.false_eq_true, if_false]
          rw [List.filter_append, List.filter_append]
          rw [filter_nil_of_false (fun ev hev => (hnl2f ev hev).2.2.1)]
          rw [bf2, r4]
          by_cases hst : stage ∈ r.gcb_stages <;> simp [hst]
        · intro ev hev hc
          rcases List.mem_cons.1 hev with hev | hev
          · exact absurd hc (by subst hev; simp [Event.is_conv_norm])
          · rcases List.mem_append.1 hev with hev | hev
            · rcases List.mem_append.1 hev with hev | hev
              · exact (bf3 ev hev).2 hc
              · exact absurd hc (by simp [(hnl2f ev hev).2.2.2.1])
            · exact r5 ev hev hc
        · intro ev hev
          rcases List.mem_cons.1 hev with hev | hev
          · subst hev
            rfl
          · rcases List.mem_append.1 hev with hev | hev
            · rcases List.mem_append.1 hev with hev | hev
              · exact (bf3 ev hev).1.2.2
              · exact (hnl2f ev hev).2.2.2.2
            · exact r6 ev hev
        · intro hk _
          obtain ⟨hd, hg⟩ := bf4 hk
          refine ⟨hd, fun hst => ?_⟩
          rw [decide_eq_true hst] at hg
          exact absurd hg (by simp)
        · intro hne
          simp at hne
        · intro _
          by_cases hrest : rest = []
          · obtain ⟨ho, _⟩ := r8 hrest
            rw [ho, hnl1, bf1]
          · exact r9 hrest

/-- The conclusion shape shared by the three `nonlocal_mod` branches of
`layer_warp`. -/
def LayerWarpFacts (r : ResNet) (ph : Option Nat) (stage : Nat) (out : Tensor)
    (evs : List Event) : Prop :=
  stage ∈ ([2, 3, 4, 5] : List Nat) ∧
  out = { chan := stage_out_chan r.layers stage } ∧
  (∀ ev ∈ evs, ev.is_freeze = false) ∧
  (∀ ev ∈ evs, ev.is_conv_norm = true →
    ConvEvFacts r.curr_stage ph r.lr_mult_list r.freeze_norm ev ∧
    ev.ev_dcn = (decide (stage ∈ r.dcn_v2_stages) && decide (ev.ev_filter_size = 3))) ∧
  ∃ sched kind, layers_cfg r.layers = some (sched, kind) ∧
    evs.countP Event.is_block = sched.getD (stage - 2) 0 ∧
    (∀ ev ∈ evs, ev.is_block = true →
      ev.ev_block_kind = some kind ∧
      ev.ev_block_filters = stage_filters.getD (stage - 2) 0) ∧
    (kind = .basic →
      decide (stage ∈ r.dcn_v2_stages) = false ∧ stage ∉ r.gcb_stages) ∧
    evs.filter Event.is_gc =
      (if stage ∈ r.gcb_stages then
        (List.range (sched.getD (stage - 2) 0)).map
          (fun j => Event.gcBlock ("gcb_res" ++ toString stage ++ "_b" ++ toString j))
      else []) ∧
    ∃ m, ((stage ∈ r.nonlocal_stages ∧
            ((stage = 4 ∧ nonlocal_mod_cfg r.layers = some m) ∨
             (stage ≠ 4 ∧ m = 2))) ∨
          (stage ∉ r.nonlocal_stages ∧ m = 1000)) ∧
      evs.filter Event.is_nonlocal =
        ((List.range (sched.getD (stage - 2) 0)).filter
          (fun j => j % m = m - 1)).map
          (fun j => Event.nonlocalBlock
            ("nonlocal_conv" ++ toString stage ++ "_" ++ toString j))

lemma layer_warp_assemble {r : ResNet} {na : NameAdapter} {ph : Option Nat}
    {stage : Nat} {sched : List Nat} {kind : BlockKind} {m : Nat}
    {input out : Tensor} {evs : List Event}
    (hcfg : layers_cfg r.layers = some (sched, kind))
    (hmem : stage ∈ ([2, 3, 4, 5] : List Nat))
    (hm : (stage ∈ r.nonlocal_stages ∧
            ((stage = 4 ∧ nonlocal_mod_cfg r.layers = some m) ∨
             (stage ≠ 4 ∧ m = 2))) ∨
          (stage ∉ r.nonlocal_stages ∧ m = 1000))
    (h : r.warp_blocks na ph stage (sched.getD (stage - 2) 0)
      (stage_filters.getD (stage - 2) 0) kind
      (decide (stage ∈ r.dcn_v2_stages)) m
      (List.range (sched.getD (stage - 2) 0)) input = .ok (out, evs)) :
    LayerWarpFacts r ph stage out evs := by
  obtain ⟨w1, w2, w3, w4, w5, w6, w7, _, w9⟩ := warp_blocks_facts _ _ _ _ h
  have hidx : stage - 2 < 4 := by
    have hm4 := hmem
    simp only [List.mem_cons, List.not_mem_nil, or_false] at hm4
    rcases hm4 with h2 | h2 | h2 | h2 <;> omega
  have hcnt : 1 ≤ sched.getD (stage - 2) 0 := (layers_cfg_sched hcfg).2.1 _ hidx
  have hrange : List.range (sched.getD (stage - 2) 0) ≠ [] := by
    intro hc
    rw [List.range_eq_nil] at hc
    omega
  refine ⟨hmem, ?_, w6, w5, sched, kind, hcfg, ?_, w2, ?_, w4, m, hm, w3⟩
  · rw [w9 hrange]
    simp [stage_out_chan, hcfg]
  · rw [w1, List.length_range]
  · intro hk
    obtain ⟨hd, hg⟩ := w7 hk hrange
    exact ⟨hd, hg⟩

lemma layer_warp_facts {r : ResNet} {na : NameAdapter} {ph : Option Nat}
    {input out : Tensor} {stage : Nat} {evs : List Event}
    (h : r.layer_warp na ph input stage = .ok (out, evs)) :
    LayerWarpFacts r ph stage out evs := by
  unfold ResNet.layer_warp at h
  split at h
  · rename_i hmem
    split at h
    · exact absurd h (by simp)
    · rename_i stages kind hcfg
      dsimp only at h
      split at h
      · rename_i hnl
        split at h
        · rename_i h4
          split at h
          · exact absurd h (by simp)
          · rename_i m hmod
            exact layer_warp_assemble hcfg hmem (.inl ⟨hnl, .inl ⟨h4, hmod⟩⟩) h
        · rename_i h4
          exact layer_warp_assemble hcfg hmem (.inl ⟨hnl, .inr ⟨h4, rfl⟩⟩) h
      · rename_i hnl
        exact layer_warp_assemble hcfg hmem (.inr ⟨hnl, rfl⟩) h
  · exact absurd h (by simp)

lemma nonlocal_mod_cfg_ge {L m : Nat} (h : nonlocal_mod_cfg L = some m) :
    2 ≤ m := by
  unfold nonlocal_mod_cfg at h
  repeat' split at h
  all_goals simp_all
  all_goals omega

lemma mod_pred_iff_succ_mod {m : Nat} (hm : 1 ≤ m) (j : Nat) :
    j % m = m - 1 ↔ (j + 1) % m = 0 := by
  have key : (j + 1) % m = (j % m + 1) % m := by
    conv_lhs => rw [← Nat.mod_add_div j m]
    rw [Nat.add_right_comm, Nat.add_mul_mod_self_left]
  have hlt : j % m < m := Nat.mod_lt _ hm
  constructor
  · intro h
    rw [key, h, Nat.sub_add_cancel hm, Nat.mod_self]
  · intro h
    rw [key] at h
    by_cases hle : j % m + 1 < m
    · rw [Nat.mod_eq_of_lt hle] at h
      omega
    · have : j % m + 1 = m := by omega
      omega

/-- C2: configuration resolution: layers 18/34 pick the basic block with
schedules [2,2,2,2]/[3,4,6,3], layers 50/101/152/200 pick the bottleneck block
with schedules [3,4,6,3]/[3,4,23,3]/[3,8,36,3]/[3,12,48,3]; and a successfully
built stage i consists of exactly schedule[i-2] blocks of the selected kind,
each built with output filter count stage_filters[i-2]. -/
theorem layers_schedule_blocks :
    (layers_cfg 18 = some ([2, 2, 2, 2], .basic) ∧
     layers_cfg 34 = some ([3, 4, 6, 3], .basic) ∧
     layers_cfg 50 = some ([3, 4, 6, 3], .bottleneck) ∧
     layers_cfg 101 = some ([3, 4, 23, 3], .bottleneck) ∧
     layers_cfg 152 = some ([3, 8, 36, 3], .bottleneck) ∧
     layers_cfg 200 = some ([3, 12, 48, 3], .bottleneck)) ∧
    ∀ (r : ResNet) (na : NameAdapter) (ph : Option Nat) (input out : Tensor)
      (stage : Nat) (evs : List Event) (sched : List Nat) (kind : BlockKind),
      r.layer_warp na ph input stage = .ok (out, evs) →
      layers_cfg r.layers = some (sched, kind) →
      evs.countP Event.is_block = sched.getD (stage - 2) 0 ∧
      ∀ ev ∈ evs, ev.is_block = true →
        ev.ev_block_kind = some kind ∧
        ev.ev_block_filters = stage_filters.getD (stage - 2) 0 := by
  refine ⟨⟨rfl, rfl, rfl, rfl, rfl, rfl⟩, ?_⟩
  intro r na ph input out stage evs sched kind h hcfg
  obtain ⟨_, _, _, _, sched', kind', hcfg', hcnt, hfields, _⟩ :=
    layer_warp_facts h
  rw [hcfg] at hcfg'
  injection hcfg' with hcfg'
  injection hcfg' with hs hk
  subst hs
  subst hk
  exact ⟨hcnt, hfields⟩

/-- C4: auxiliary blocks are injected exactly at the configured stage indices:
in a successfully built stage, a conv is deformable iff the stage is in
`dcn_v2_stages` and it is the 3x3 conv of its block; one global-context node
per block appears iff the stage is in `gcb_stages`; and a non-local node
appears after block j iff the stage is in `nonlocal_stages` and j+1 is a
multiple of the modulus (`nonlocal_mod_cfg[layers]` for stage 4, else 2). -/
theorem auxiliary_block_injection :
    ∀ (r : ResNet) (na : NameAdapter) (ph : Option Nat) (input out : Tensor)
      (stage : Nat) (evs : List Event) (sched : List Nat) (kind : BlockKind)
      (mm : Nat),
      r.layer_warp na ph input stage = .ok (out, evs) →
      layers_cfg r.layers = some (sched, kind) →
      (stage = 4 → nonlocal_mod_cfg r.layers = some mm) →
      (stage ≠ 4 → mm = 2) →
      (∀ ev ∈ evs, ev.is_conv_norm = true →
        (ev.ev_dcn = true ↔ (stage ∈ r.dcn_v2_stages ∧ ev.ev_filter_size = 3))) ∧
      (evs.filter Event.is_gc =
        (if stage ∈ r.gcb_stages then
          (List.range (sched.getD (stage - 2) 0)).map
            (fun j => Event.gcBlock ("gcb_res" ++ toString stage ++ "_b" ++ toString j))
        else [])) ∧
      (evs.filter Event.is_nonlocal =
        (if stage ∈ r.nonlocal_stages then
          ((List.range (sched.getD (stage - 2) 0)).filter
            (fun j => (j + 1) % mm = 0)).map
            (fun j => Event.nonlocalBlock
              ("nonlocal_conv" ++ toString stage ++ "_" ++ toString j))
        else [])) := by
  intro r na ph input out stage evs sched kind mm h hcfg hm4 hmo
  obtain ⟨hmem, _, _, hconv, sched', kind', hcfg', _, _, _, hgc, m, hm, hnl⟩ :=
    layer_warp_facts h
  rw [hcfg] at hcfg'
  injection hcfg' with hcfg'
  injection hcfg' with hs hk
  subst hs
  subst hk
  have hidx : stage - 2 < 4 := by
    have hmm := hmem
    simp at hmm
    rcases hmm with h2 | h2 | h2 | h2 <;> omega
  have hbound : sched.getD (stage - 2) 0 ≤ 48 :=
    (layers_cfg_sched hcfg).2.2 _ hidx
  refine ⟨?_, hgc, ?_⟩
  · intro ev hev hc
    have hd := (hconv ev hev hc).2
    constructor
    · intro ht
      rw [ht] at hd
      have := hd.symm
      simp at this
      exact ⟨this.1, this.2⟩
    · intro ⟨h1, h2⟩
      rw [hd]
      simp [h1, h2]
  · rw [hnl]
    rcases hm with ⟨hin, hcase⟩ | ⟨hout, hmod⟩
    · rw [if_pos hin]
      have hmeq : m = mm := by
        rcases hcase with ⟨h4, hmc⟩ | ⟨h4, hm2⟩
        · rw [hm4 h4] at hmc
          injection hmc with hv
          exact hv.symm
        · rw [hmo h4, hm2]
      subst hmeq
      have hmge : 1 ≤ m := by
        rcases hcase with ⟨h4, hmc⟩ | ⟨_, hm2⟩
        · have := nonlocal_mod_cfg_ge hmc
          omega
        · omega
      congr 1
      apply List.filter_congr
      intro j _
      simp only [decide_eq_decide]
      exact mod_pred_iff_succ_mod hmge j
    · rw [if_neg hout, hmod]
      have : (List.range (sched.getD (stage - 2) 0)).filter
          (fun j => j % 1000 = 1000 - 1) = [] := by
        apply filter_nil_of_false
        intro j hj
        rw [List.mem_range] at hj
        have hjlt : j < 1000 := by omega
        rw [Nat.mod_eq_of_lt hjlt]
        simp
        omega
      rw [this]
      simp

/-- A concrete name policy used to instantiate theorems on concrete inputs. -/
def naW : NameAdapter :=
  { fix_conv_norm_name := fun n => n,
    fix_shortcut_name := fun n => n,
    fix_bottleneck_name := fun n => (n, n, n, n),
    fix_layer_warp_name := fun _ _ _ => "b",
    fix_c1_stage_name := "c1" }

/-- A concrete instance with the constructor's default configuration. -/
def rBase : ResNet :=
  { layers := 50, freeze_at := 0, norm_type := "bn", freeze_norm := false,
    norm_decay := 0, variant := "b", feature_maps := [2, 3, 4, 5],
    dcn_v2_stages := [], prefix_name := "", nonlocal_stages := [],
    gcb_stages := [], num_classes := none, lr_mult_list := [1, 1, 1, 1, 1],
    severed_head := false, curr_stage := 0 }

def rW18 : ResNet := { rBase with layers := 18, feature_maps := [2] }

def rC4 : ResNet :=
  { rBase with dcn_v2_stages := [2], gcb_stages := [2], nonlocal_stages := [2] }

theorem layers_schedule_blocks_witness :
    ∃ out evs,
      rW18.layer_warp naW none { chan := 64 } 2 = Except.ok (out, evs) ∧
      evs.countP Event.is_block = 2 := by
  refine ⟨_, _, rfl, ?_⟩
  exact (layers_schedule_blocks.2 rW18 naW none { chan := 64 } _ 2 _
    [2, 2, 2, 2] .basic rfl rfl).1

theorem auxiliary_block_injection_witness :
    ∃ out evs,
      rC4.layer_warp naW none { chan := 64 } 2 = Except.ok (out, evs) ∧
      (evs.filter Event.is_nonlocal =
        (if 2 ∈ rC4.nonlocal_stages then
          ((List.range ([3, 4, 6, 3].getD (2 - 2) 0)).filter
            (fun j => (j + 1) % 2 = 0)).map
            (fun j => Event.nonlocalBlock
              ("nonlocal_conv" ++ toString 2 ++ "_" ++ toString j))
        else [])) := by
  refine ⟨_, _, rfl, ?_⟩
  exact (auxiliary_block_injection rC4 naW none { chan := 64 } _ 2 _
    [3, 4, 6, 3] .bottleneck 2 rfl rfl (fun h4 => absurd h4 (by decide))
    (fun _ => rfl)).2.2

def Event.is_pool : Event → Bool
  | .pool _ _ _ _ _ => true
  | _ => false

/-- Convolutions and pooling nodes: the layers through which a data path
passes. -/
def conv_or_pool (ev : Event) : Bool := ev.is_conv_norm || ev.is_pool

lemma conv_norm_events_cp_filter {c : Nat} {ph : Option Nat} {nm : String}
    {nf ks s g : Nat} {d : Bool} {lr nlr : Rat} {fz : Bool} :
    (conv_norm_events c ph nm nf ks s g d lr nlr fz).filter conv_or_pool =
      [Event.convNorm (nm ++ "_weights") nf ks s g
        (if d then none else some lr) nlr fz d c ph] := by
  by_cases hd : d <;>
    simp [conv_norm_events, hd, conv_or_pool, Event.is_conv_norm, Event.is_pool,
      List.filter]

lemma shortcut_structure {r : ResNet} {na : NameAdapter} {ph : Option Nat}
    {input t : Tensor} {ch_out stride : Nat} {is_first : Bool} {nm : String}
    {evs : List Event}
    (h : r.shortcut na ph input ch_out stride is_first nm = .ok (t, evs)) :
    (¬(input.chan ≠ ch_out ∨ stride ≠ 1 ∨ (r.layers < 50 ∧ is_first = true)) ∧
      evs = []) ∨
    ((input.chan ≠ ch_out ∨ stride ≠ 1 ∨ (r.layers < 50 ∧ is_first = true)) ∧
      ∃ lr, r.lr_mult_list[r.curr_stage]? = some lr ∧
      (((r.variant = "d" ∧ ¬is_first = true) ∧
        evs = Event.pool "avg" 2 2 0 false ::
          conv_norm_events r.curr_stage ph (r.pfx (na.fix_shortcut_name nm))
            ch_out 1 1 1 false lr (if r.freeze_norm then 0 else lr)
            r.freeze_norm) ∨
       (¬(r.variant = "d" ∧ ¬is_first = true) ∧
        evs = conv_norm_events r.curr_stage ph (r.pfx (na.fix_shortcut_name nm))
          ch_out 1 stride 1 false lr (if r.freeze_norm then 0 else lr)
          r.freeze_norm))) := by
  unfold ResNet.shortcut at h
  dsimp only at h
  split at h
  · rename_i hproj
    split at h
    · rename_i hpool
      split at h
      · exact absurd h (by simp)
      · rename_i tc ec heq
        injection h with h
        injection h with h1 h2
        obtain ⟨lr, hlr, hp⟩ := conv_norm_ok heq
        simp only [Prod.mk.injEq] at hp
        refine .inr ⟨hproj, lr, hlr, .inl ⟨hpool, ?_⟩⟩
        rw [← h2, hp.2]
    · rename_i hpool
      obtain ⟨lr, hlr, hp⟩ := conv_norm_ok h
      simp only [Prod.mk.injEq] at hp
      exact .inr ⟨hproj, lr, hlr, .inr ⟨hpool, hp.2⟩⟩
  · rename_i hproj
    injection h with h
    injection h with h1 h2
    exact .inl ⟨hproj, h2.symm⟩

/-- C5: stride placement in a bottleneck block: variant 'a' puts the
down-sampling stride on the first 1x1 conv (3x3 conv gets stride 1), variants
'b'/'c'/'d' put it on the 3x3 conv (first 1x1 gets stride 1); and a projection
shortcut is a 2x2 stride-2 average pool followed by a stride-1 1x1 conv-norm
for variant 'd' in a non-first block, and a single 1x1 conv-norm carrying the
block stride otherwise. -/
lemma cp_filter_pool_cons {c : Nat} {ph : Option Nat} {nm : String}
    {nf ks s g : Nat} {lr nlr : Rat} {fz : Bool} :
    ((Event.pool "avg" 2 2 0 false ::
      conv_norm_events c ph nm nf ks s g false lr nlr fz).filter conv_or_pool) =
    [Event.pool "avg" 2 2 0 false,
     Event.convNorm (nm ++ "_weights") nf ks s g (some lr) nlr fz false c ph] := by
  simp [List.filter_cons, conv_or_pool, Event.is_pool, Event.is_conv_norm,
    conv_norm_events, List.filter]

theorem bottleneck_stride_variant :
    ∀ (r : ResNet) (na : NameAdapter) (ph : Option Nat) (input t : Tensor)
      (nf stride : Nat) (is_first : Bool) (name : String) (dcn gcb : Bool)
      (gcbn : String) (evs : List Event),
      r.bottleneck na ph input nf stride is_first name dcn gcb gcbn = .ok (t, evs) →
      ∃ c1 c2 c3 rest,
        evs.filter conv_or_pool = c1 :: c2 :: c3 :: rest ∧
        c1.is_conv_norm = true ∧ c1.ev_filter_size = 1 ∧
        c1.ev_stride = (if r.variant = "a" then stride else 1) ∧
        c2.is_conv_norm = true ∧ c2.ev_filter_size = 3 ∧
        c2.ev_stride = (if r.variant = "a" then 1 else stride) ∧
        c3.is_conv_norm = true ∧ c3.ev_filter_size = 1 ∧ c3.ev_stride = 1 ∧
        ((¬(input.chan ≠ nf * 4 ∨ stride ≠ 1 ∨ (r.layers < 50 ∧ is_first = true))) →
          rest = []) ∧
        ((input.chan ≠ nf * 4 ∨ stride ≠ 1 ∨ (r.layers < 50 ∧ is_first = true)) →
          ((r.variant = "d" ∧ is_first = false) →
            ∃ sc, rest = [Event.pool "avg" 2 2 0 false, sc] ∧
              sc.is_conv_norm = true ∧ sc.ev_filter_size = 1 ∧
              sc.ev_stride = 1 ∧ sc.ev_num_filters = nf * 4) ∧
          (¬(r.variant = "d" ∧ is_first = false) →
            ∃ sc, rest = [sc] ∧ sc.is_conv_norm = true ∧
              sc.ev_filter_size = 1 ∧ sc.ev_stride = stride ∧
              sc.ev_num_filters = nf * 4)) := by
  intro r na ph input t nf stride is_first name dcn gcb gcbn evs h
  unfold ResNet.bottleneck at h
  dsimp only at h
  split at h
  · exact absurd h (by simp)
  · rename_i t1 e1 heq1
    split at h
    · exact absurd h (by simp)
    · rename_i t2 e2 heq2
      split at h
      · exact absurd h (by simp)
      · rename_i t3 e3 heq3
        split at h
        · exact absurd h (by simp)
        · rename_i t4 e4 heq4
          injection h with h
          injection h with h1 h2
          obtain ⟨lr1, _, hp1⟩ := conv_norm_ok heq1
          obtain ⟨lr2, _, hp2⟩ := conv_norm_ok heq2
          obtain ⟨lr3, _, hp3⟩ := conv_norm_ok heq3
          simp only [Prod.mk.injEq] at hp1 hp2 hp3
          have hgevs : (if gcb = true then add_gc_block t3 gcbn
              else (t3, [])).2.filter conv_or_pool = [] := by
            by_cases hg : gcb = true <;>
              simp [hg, add_gc_block, conv_or_pool, Event.is_conv_norm,
                Event.is_pool, List.filter]
          have hfevs : evs.filter conv_or_pool =
              e1.filter conv_or_pool ++ e2.filter conv_or_pool ++
              e3.filter conv_or_pool ++ e4.filter conv_or_pool := by
            rw [← h2]
            rw [List.filter_append, List.filter_append, List.filter_append,
              List.filter_append, hgevs]
            simp
          rw [hp1.2, conv_norm_events_cp_filter] at hfevs
          rw [hp2.2, conv_norm_events_cp_filter] at hfevs
          rw [hp3.2, conv_norm_events_cp_filter] at hfevs
          rcases shortcut_structure heq4 with ⟨hnp, he4⟩ | ⟨hproj, lr4, _, hcase⟩
          · subst he4
            simp only [List.append_assoc, List.singleton_append,
              List.filter_nil, List.append_nil] at hfevs
            exact ⟨_, _, _, _, hfevs, rfl, rfl, rfl, rfl, rfl, rfl, rfl, rfl,
              rfl, fun _ => rfl, fun hc => absurd hc hnp⟩
          · rcases hcase with ⟨hd, he4⟩ | ⟨hd, he4⟩
            · subst he4
              rw [cp_filter_pool_cons] at hfevs
              simp only [List.append_assoc, List.singleton_append,
                List.filter_nil, List.append_nil] at hfevs
              have hd' : r.variant = "d" ∧ is_first = false := by
                refine ⟨hd.1, ?_⟩
                rcases Bool.eq_false_or_eq_true is_first with hf | hf
                · exact absurd hf hd.2
                · exact hf
              exact ⟨_, _, _, _, hfevs, rfl, rfl, rfl, rfl, rfl, rfl, rfl, rfl,
                rfl, fun hc => absurd hproj hc,
                fun _ => ⟨fun _ => ⟨_, rfl, rfl, rfl, rfl, rfl⟩,
                  fun hc => absurd hd' hc⟩⟩
            · subst he4
              rw [conv_norm_events_cp_filter] at hfevs
              simp only [List.append_assoc, List.singleton_append,
                List.filter_nil, List.append_nil] at hfevs
              have hd' : ¬(r.variant = "d" ∧ is_first = false) := by
                intro hcc
                exact hd ⟨hcc.1, by rw [hcc.2]; simp⟩
              exact ⟨_, _, _, _, hfevs, rfl, rfl, rfl, rfl, rfl, rfl, rfl, rfl,
                rfl, fun hc => absurd hproj hc,
                fun _ => ⟨fun hc => absurd hc hd',
                  fun _ => ⟨_, rfl, rfl, rfl, rfl, rfl⟩⟩⟩

theorem bottleneck_stride_variant_witness :
    ∃ t evs,
      rBase.bottleneck naW none { chan := 64 } 64 2 false "n" false false "g" =
        Except.ok (t, evs) ∧
      ∃ c1 c2 c3 rest,
        evs.filter conv_or_pool = c1 :: c2 :: c3 :: rest ∧ c2.ev_stride = 2 := by
  refine ⟨_, _, rfl, ?_⟩
  obtain ⟨c1, c2, c3, rest, heq, _, _, _, _, _, hs2, _⟩ :=
    bottleneck_stride_variant rBase naW none { chan := 64 } _ 64 2 false "n"
      false false "g" _ rfl
  exact ⟨c1, c2, c3, rest, heq, by rw [hs2]; decide⟩

lemma c1_convs_facts {r : ResNet} :
    ∀ (cdefs : List (Nat × Nat × Nat × String)) (t0 t : Tensor)
      (acc evs : List Event),
    r.c1_convs cdefs t0 acc = .ok (t, evs) →
    ∃ newE, evs = acc ++ newE ∧
      ∀ ev ∈ newE, NonLoopEv ev ∧ ev.is_gc = false ∧
        (ev.is_conv_norm = true →
          ConvEvFacts r.curr_stage none r.lr_mult_list r.freeze_norm ev ∧
          ev.ev_dcn = false) := by
  intro cdefs
  induction cdefs with
  | nil =>
    intro t0 t acc evs h
    simp only [ResNet.c1_convs] at h
    injection h with h
    injection h with h1 h2
    subst h2
    exact ⟨[], by simp, by simp⟩
  | cons cd rest ih =>
    intro t0 t acc evs h
    obtain ⟨c, k, s, nm⟩ := cd
    simp only [ResNet.c1_convs] at h
    split at h
    · exact absurd h (by simp)
    · rename_i t1 e1 heq
      obtain ⟨newE, hsplit, hfacts⟩ := ih _ _ _ _ h
      obtain ⟨_, f1⟩ := conv_norm_evs_facts heq
      refine ⟨e1 ++ newE, by rw [hsplit, List.append_assoc], ?_⟩
      intro ev hev
      rcases List.mem_append.1 hev with hev | hev
      · obtain ⟨g1, g2, g3⟩ := f1 ev hev
        exact ⟨g1, g2, fun hc => ⟨(g3 hc).1, (g3 hc).2.1⟩⟩
      · exact hfacts ev hev

lemma conv_norm_events_false (c : Nat) (ph : Option Nat) (nm : String)
    (nf ks s g : Nat) (lr nlr : Rat) (fz : Bool) :
    conv_norm_events c ph nm nf ks s g false lr nlr fz =
      [Event.convNorm (nm ++ "_weights") nf ks s g (some lr) nlr fz false c ph] := by
  simp [conv_norm_events]

/-- C6: the stem: variants 'c'/'d' build three 3x3 conv-norms with 32, 32, 64
output channels and strides 2, 1, 1; variants 'a'/'b' build one 7x7 stride-2
conv-norm with 64 output channels; every variant ends with a 3x3 stride-2
padding-1 max pool. -/
theorem c1_stem_structure :
    ∀ (r : ResNet) (na : NameAdapter) (input t : Tensor) (evs : List Event),
      r.c1_stage na input = .ok (t, evs) →
      ((r.variant = "c" ∨ r.variant = "d") →
        ∃ e1 e2 e3, evs = [e1, e2, e3, Event.pool "max" 3 2 1 false] ∧
          e1.is_conv_norm = true ∧ e1.ev_num_filters = 32 ∧
          e1.ev_filter_size = 3 ∧ e1.ev_stride = 2 ∧
          e2.is_conv_norm = true ∧ e2.ev_num_filters = 32 ∧
          e2.ev_filter_size = 3 ∧ e2.ev_stride = 1 ∧
          e3.is_conv_norm = true ∧ e3.ev_num_filters = 64 ∧
          e3.ev_filter_size = 3 ∧ e3.ev_stride = 1) ∧
      (¬(r.variant = "c" ∨ r.variant = "d") →
        ∃ e1, evs = [e1, Event.pool "max" 3 2 1 false] ∧
          e1.is_conv_norm = true ∧ e1.ev_num_filters = 64 ∧
          e1.ev_filter_size = 7 ∧ e1.ev_stride = 2) := by
  intro r na input t evs h
  unfold ResNet.c1_stage at h
  dsimp only at h
  split at h
  · exact absurd h (by simp)
  · rename_i tc ec heq
    injection h with h
    injection h with h1 h2
    subst h2
    by_cases hv : r.variant = "c" ∨ r.variant = "d"
    · rw [if_pos hv] at heq
      simp only [ResNet.c1_convs] at heq
      split at heq
      · exact absurd heq (by simp)
      · rename_i ta ea heqa
        split at heq
        · exact absurd heq (by simp)
        · rename_i tb eb heqb
          split at heq
          · exact absurd heq (by simp)
          · rename_i tcc ecc heqc
            injection heq with heq
            injection heq with hq1 hq2
            obtain ⟨lra, _, hpa⟩ := conv_norm_ok heqa
            obtain ⟨lrb, _, hpb⟩ := conv_norm_ok heqb
            obtain ⟨lrc, _, hpc⟩ := conv_norm_ok heqc
            simp only [Prod.mk.injEq] at hpa hpb hpc
            rw [← hq2, hpa.2, hpb.2, hpc.2]
            simp only [conv_norm_events_false]
            refine ⟨fun _ => ?_, fun hc => absurd hv hc⟩
            simp only [List.nil_append, List.append_assoc,
              List.singleton_append]
            exact ⟨_, _, _, rfl, rfl, rfl, rfl, rfl, rfl, rfl, rfl, rfl,
              rfl, rfl, rfl, rfl⟩
    · rw [if_neg hv] at heq
      simp only [ResNet.c1_convs] at heq
      split at heq
      · exact absurd heq (by simp)
      · rename_i ta ea heqa
        injection heq with heq
        injection heq with hq1 hq2
        obtain ⟨lra, _, hpa⟩ := conv_norm_ok heqa
        simp only [Prod.mk.injEq] at hpa
        rw [← hq2, hpa.2]
        simp only [conv_norm_events_false]
        refine ⟨fun hc => absurd hc hv, fun _ => ?_⟩
        simp only [List.nil_append, List.singleton_append]
        exact ⟨_, rfl, rfl, rfl, rfl, rfl⟩

def rD : ResNet := { rBase with variant := "d" }

theorem c1_stem_structure_witness :
    ∃ t evs, rD.c1_stage naW { chan := 3 } = Except.ok (t, evs) ∧
      ∃ e1 e2 e3, evs = [e1, e2, e3, Event.pool "max" 3 2 1 false] ∧
        e1.ev_num_filters = 32 := by
  refine ⟨_, _, rfl, ?_⟩
  obtain ⟨h1, _⟩ := c1_stem_structure rD naW { chan := 3 } _ _ rfl
  obtain ⟨e1, e2, e3, heq, _, hnf, _⟩ := h1 (Or.inr rfl)
  exact ⟨e1, e2, e3, heq, hnf⟩

lemma call_stages_facts {na : NameAdapter} :
    ∀ (l : List Nat) (r : ResNet) (res : Tensor) (endpoints eps : List Tensor)
      (out : Tensor) (curr : Nat) (evs : List Event),
    r.call_stages na l res endpoints = .ok (eps, out, curr, evs) →
    curr = r.curr_stage + l.length ∧
    eps = endpoints ++ (l.filter (fun i => i ∈ r.feature_maps)).map
      (fun i => ({ chan := stage_out_chan r.layers i } : Tensor)) ∧
    (∀ i, Event.freezeStage i ∈ evs ↔ (i ∈ l ∧ (i : Int) ≤ r.freeze_at)) ∧
    (l = List.range' (r.curr_stage + 2) l.length →
      ∀ ev ∈ evs, ev.is_conv_norm = true →
        ∃ i, i ∈ l ∧ ev.ev_phase = some i ∧ ev.ev_at_stage = i - 1 ∧
          (ev.ev_dcn = false → ev.ev_weight_lr = r.lr_mult_list[i - 1]?) ∧
          ev.ev_norm_frozen = r.freeze_norm ∧
          (r.freeze_norm = true → ev.ev_norm_lr = 0)) := by
  intro l
  induction l with
  | nil =>
    intro r res endpoints eps out curr evs h
    simp only [ResNet.call_stages] at h
    injection h with h
    injection h with h1 h2
    injection h2 with h2 h3
    injection h3 with h3 h4
    subst h1
    subst h3
    subst h4
    exact ⟨by simp, by simp, by simp, by simp⟩
  | cons i rest ih =>
    intro r res endpoints eps out curr evs h
    simp only [ResNet.call_stages] at h
    split at h
    · exact absurd h (by simp)
    · rename_i res1 evs1 heqw
      split at h
      · exact absurd h (by simp)
      · rename_i eps2 out2 curr2 evs2 heqr
        injection h with h
        injection h with h1 h2
        injection h2 with h2 h3
        injection h3 with h3 h4
        subst h1
        subst h3
        subst h4
        obtain ⟨_, hchan, hnofreeze, hconvw, _⟩ := layer_warp_facts heqw
        obtain ⟨ih1, ih2, ih3, ih4⟩ := ih _ _ _ _ _ _ _ heqr
        refine ⟨?_, ?_, ?_, ?_⟩
        · rw [ih1]
          simp
          omega
        · rw [ih2]
          by_cases hmem : i ∈ r.feature_maps <;>
            simp [List.filter_cons, hmem, hchan, List.append_assoc]
        · intro j
          constructor
          · intro hj
            rcases List.mem_append.1 hj with hj | hj
            · rcases List.mem_append.1 hj with hj | hj
              · exact absurd (hnofreeze _ hj) (by simp [Event.is_freeze])
              · by_cases hfz : (i : Int) ≤ r.freeze_at
                · rw [if_pos hfz] at hj
                  simp at hj
                  subst hj
                  exact ⟨by simp, hfz⟩
                · rw [if_neg hfz] at hj
                  exact absurd hj (List.not_mem_nil _)
            · obtain ⟨hin, hle⟩ := (ih3 j).1 hj
              exact ⟨by simp [hin], hle⟩
          · intro ⟨hin, hle⟩
            rcases List.mem_cons.1 hin with hin | hin
            · subst hin
              refine List.mem_append.2 (.inl (List.mem_append.2 (.inr ?_)))
              rw [if_pos hle]
              simp
            · exact List.mem_append.2 (.inr ((ih3 j).2 ⟨hin, hle⟩))
        · intro hrange ev hev hc
          have hr' : i = r.curr_stage + 2 ∧
              rest = List.range' (r.curr_stage + 2 + 1) rest.length := by
            rw [List.length_cons, List.range'_succ] at hrange
            injection hrange with ha hb
            exact ⟨ha, hb⟩
          rcases List.mem_append.1 hev with hev | hev
          · rcases List.mem_append.1 hev with hev | hev
            · obtain ⟨⟨cf1, cf2, cf3, cf4, cf5⟩, _⟩ := hconvw ev hev hc
              refine ⟨i, by simp, cf1, ?_, ?_, cf4, cf5⟩
              · rw [cf2, hr'.1]
                show r.curr_stage + 1 = r.curr_stage + 2 - 1
                omega
              · intro hd
                rw [cf3 hd, hr'.1]
                show r.lr_mult_list[r.curr_stage + 1]? =
                  r.lr_mult_list[r.curr_stage + 2 - 1]?
                have hix : r.curr_stage + 2 - 1 = r.curr_stage + 1 := by omega
                rw [hix]
            · by_cases hfz : (i : Int) ≤ r.freeze_at
              · rw [if_pos hfz] at hev
                simp at hev
                subst hev
                exact absurd hc (by simp [Event.is_conv_norm])
              · rw [if_neg hfz] at hev
                exact absurd hev (List.not_mem_nil _)
          · have hrest := ih4 (by rw [hr'.2, List.length_range']) ev hev hc
            obtain ⟨j, hj1, hj2, hj3, hj4, hj5, hj6⟩ := hrest
            exact ⟨j, by simp [hj1], hj2, hj3, hj4, hj5, hj6⟩

lemma init_fields {a : Args} {r : ResNet} (h : ResNet.init a = .ok r) :
    r = { layers := a.layers, freeze_at := a.freeze_at,
          norm_type := a.norm_type, freeze_norm := a.freeze_norm,
          norm_decay := a.norm_decay, variant := a.variant,
          feature_maps := a.feature_maps, dcn_v2_stages := a.dcn_v2_stages,
          prefix_name := a.weight_prefix_name,
          nonlocal_stages := a.nonlocal_stages, gcb_stages := a.gcb_stages,
          num_classes := a.num_classes, lr_mult_list := a.lr_mult_list,
          severed_head := false, curr_stage := 0 } := by
  unfold ResNet.init at h
  repeat' split at h
  all_goals simp_all

lemma call_ok_nonsevered {r : ResNet} {na : NameAdapter} {input : Tensor}
    {out : CallOut} {r' : ResNet} {evs : List Event}
    (hsev : r.severed_head = false)
    (h : r.call na input = .ok (out, r', evs)) :
    (∀ f ∈ r.feature_maps, f ∈ ([1, 2, 3, 4, 5] : List Nat)) ∧
    ∃ t0 evs0 m endpoints res curr evs1,
      r.c1_stage na input = .ok (t0, evs0) ∧
      r.feature_maps.max? = some m ∧
      r.call_stages na (List.range' 2 (m + 1 - 2)) t0 [] =
        .ok (endpoints, res, curr, evs1) ∧
      r' = { r with curr_stage := curr } ∧
      ((∃ n, r.num_classes = some n ∧ out = .logits { chan := n } ∧
        evs = evs0 ++ evs1 ++ [Event.pool "avg" 0 1 0 true, Event.fcLayer n]) ∨
       (r.num_classes = none ∧
        ∃ pairs, enum_pairs r.feature_maps endpoints 0 = .ok pairs ∧
          out = .endpoints (ordered_dict pairs) ∧ evs = evs0 ++ evs1)) := by
  unfold ResNet.call at h
  rw [hsev] at h
  simp only [Bool.false_eq_true, if_false] at h
  split at h
  · rename_i hfm
    split at h
    · exact absurd h (by simp)
    · rename_i res0 fm evs0 hstem
      have hfm' : ∀ f ∈ r.feature_maps, f ∈ ([1, 2, 3, 4, 5] : List Nat) := by
        intro f hf
        have := List.all_eq_true.1 hfm f hf
        simpa using this
      refine ⟨hfm', ?_⟩
      split at hstem
      · exact absurd hstem (by simp)
      · rename_i t0 e0 hc1
        split at hstem
        · exact absurd hstem (by simp)
        · rename_i m hmax
          injection hstem with hstem
          injection hstem with hs1 hs2
          injection hs2 with hs2 hs3
          subst hs1
          subst hs2
          subst hs3
          split at h
          · exact absurd h (by simp)
          · rename_i endpoints res curr evs1 hcs
            split at h
            · rename_i n hnc
              injection h with h
              injection h with h1 h2
              injection h2 with h2 h3
              subst h1
              subst h3
              exact ⟨t0, e0, m, endpoints, res, curr, evs1, hc1, hmax, hcs,
                by rw [hsev]; exact h2.symm, .inl ⟨n, hnc, rfl, rfl⟩⟩
            · rename_i hnc
              split at h
              · exact absurd h (by simp)
              · rename_i pairs hpairs
                injection h with h
                injection h with h1 h2
                injection h2 with h2 h3
                subst h1
                subst h3
                exact ⟨t0, e0, m, endpoints, res, curr, evs1, hc1, hmax, hcs,
                  by rw [hsev]; exact h2.symm, .inr ⟨hnc, pairs, hpairs, rfl, rfl⟩⟩
  · exact absurd h (by simp)

lemma c1_stage_facts {r : ResNet} {na : NameAdapter} {input t : Tensor}
    {evs : List Event} (h : r.c1_stage na input = .ok (t, evs)) :
    ∀ ev ∈ evs, NonLoopEv ev ∧
      (ev.is_conv_norm = true →
        ConvEvFacts r.curr_stage none r.lr_mult_list r.freeze_norm ev ∧
        ev.ev_dcn = false) := by
  unfold ResNet.c1_stage at h
  dsimp only at h
  split at h
  · exact absurd h (by simp)
  · rename_i tc ec heq
    injection h with h
    injection h with h1 h2
    subst h2
    obtain ⟨newE, hsplit, hfacts⟩ := c1_convs_facts _ _ _ _ _ heq
    intro ev hev
    rcases List.mem_append.1 hev with hev | hev
    · rw [hsplit] at hev
      simp only [List.nil_append] at hev
      exact ⟨(hfacts ev hev).1, (hfacts ev hev).2.2⟩
    · simp at hev
      subst hev
      exact ⟨⟨rfl, rfl, rfl⟩,
        by intro hc; exact absurd hc (by simp [Event.is_conv_norm])⟩

def a8 : Args := { layers := 18, feature_maps := [2], num_classes := some 10 }

def r8 : ResNet :=
  { rBase with layers := 18, feature_maps := [2], num_classes := some 10 }

def aC7 : Args :=
  { layers := 50, feature_maps := [2], dcn_v2_stages := [2],
    lr_mult_list := [1, 2, 1, 1, 1] }

def rC7 : ResNet :=
  { rBase with
      feature_maps := [2]
      dcn_v2_stages := [2]
      lr_mult_list := [1, 2, 1, 1, 1] }

/-- C7 counterexample: with a valid configuration enabling deformable conv on
stage 2 and `lr_mult_list[1] = 2`, the build emits a stage-2 convolution whose
weight ParamAttr carries no learning rate at all (the deformable branch), so
not every stage-2 conv weight uses `lr_mult_list[1]`. -/
theorem lr_mult_dcn_counterexample :
    ResNet.init aC7 = Except.ok rC7 ∧
    rC7.lr_mult_list[2 - 1]? = some 2 ∧
    ∃ out r' evs, rC7.call naW { chan := 3 } = Except.ok (out, r', evs) ∧
      evs.any (fun ev => ev.is_conv_norm && (ev.ev_phase == some 2) &&
        (ev.ev_weight_lr == none)) = true := by
  refine ⟨rfl, rfl, _, _, _, rfl, ?_⟩
  rfl

/-- C7 (amended): per-stage wiring of learning rates and freezing, for a
constructed instance's first graph build: the stage output is marked
stop-gradient exactly when `freeze_at >= i`; with `freeze_norm`, every norm
scale/bias gets learning rate 0 and stop_gradient; every NON-deformable
convolution weight built during stage i carries multiplier `lr_mult_list[i-1]`
and the stem carries `lr_mult_list[0]` — deformable convolutions (and their
offset layers) are built without the multiplier. -/
theorem stage_wiring_lr_freeze :
    ∀ (a : Args) (r r' : ResNet) (na : NameAdapter) (input : Tensor)
      (out : CallOut) (evs : List Event),
      ResNet.init a = .ok r →
      r.call na input = .ok (out, r', evs) →
      (∀ ev ∈ evs, ev.is_conv_norm = true →
        (ev.ev_phase = none → ev.ev_at_stage = 0 ∧ ev.ev_dcn = false ∧
          ev.ev_weight_lr = a.lr_mult_list[0]?) ∧
        (∀ i, ev.ev_phase = some i →
          ev.ev_at_stage = i - 1 ∧
          (ev.ev_dcn = false → ev.ev_weight_lr = a.lr_mult_list[i - 1]?)) ∧
        (a.freeze_norm = true → ev.ev_norm_lr = 0 ∧ ev.ev_norm_frozen = true)) ∧
      (∀ m, a.feature_maps.max? = some m →
        ∀ i, Event.freezeStage i ∈ evs ↔
          (i ∈ List.range' 2 (m + 1 - 2) ∧ (i : Int) ≤ a.freeze_at)) := by
  intro a r r' na input out evs hinit hcall
  have hfields := init_fields hinit
  have hsev : r.severed_head = false := by rw [hfields]
  have hcurr : r.curr_stage = 0 := by rw [hfields]
  have hlrl : r.lr_mult_list = a.lr_mult_list := by rw [hfields]
  have hfzn : r.freeze_norm = a.freeze_norm := by rw [hfields]
  have hfat : r.freeze_at = a.freeze_at := by rw [hfields]
  have hfm : r.feature_maps = a.feature_maps := by rw [hfields]
  obtain ⟨_, t0, evs0, m, endpoints, res, curr, evs1, hc1, hmax, hcs, _,
    htail⟩ := call_ok_nonsevered hsev hcall
  have hstem := c1_stage_facts hc1
  obtain ⟨_, _, hfreeze, hconv⟩ := call_stages_facts _ _ _ _ _ _ _ _ hcs
  have hconv' := hconv (by rw [List.length_range', hcurr])
  obtain ⟨tailE, hevs, htailf⟩ :
      ∃ tailE, evs = (evs0 ++ evs1) ++ tailE ∧
        ∀ ev ∈ tailE, ev.is_conv_norm = false ∧ ev.is_freeze = false := by
    rcases htail with ⟨n, _, _, hevs⟩ | ⟨_, pairs, _, _, hevs⟩
    · refine ⟨[Event.pool "avg" 0 1 0 true, Event.fcLayer n],
        by rw [hevs], ?_⟩
      intro ev hev
      simp only [List.mem_cons, List.not_mem_nil, or_false] at hev
      rcases hev with hev | hev <;> subst hev <;> exact ⟨rfl, rfl⟩
    · exact ⟨[], by rw [hevs]; simp, by simp⟩
  subst hevs
  constructor
  · intro ev hev hc
    rcases List.mem_append.1 hev with hev | hev
    · rcases List.mem_append.1 hev with hev | hev
      · obtain ⟨⟨cp, ca, cw, cf, cn⟩, cd⟩ := (hstem ev hev).2 hc
        rw [hcurr] at ca cw
        refine ⟨fun _ => ⟨ca, cd, by rw [cw cd, hlrl]⟩, ?_, ?_⟩
        · intro i hip
          rw [cp] at hip
          exact absurd hip (by simp)
        · intro hfz
          rw [hfzn] at cn cf
          exact ⟨cn hfz, by rw [cf, hfz]⟩
      · obtain ⟨i, hil, cp, ca, cw, cf, cn⟩ := hconv' ev hev hc
        refine ⟨fun hip => ?_, fun j hip => ?_, fun hfz => ?_⟩
        · rw [cp] at hip
          exact absurd hip (by simp)
        · rw [cp] at hip
          injection hip with hip
          subst hip
          exact ⟨ca, fun hd => by rw [cw hd, hlrl]⟩
        · rw [hfzn] at cn cf
          exact ⟨cn hfz, by rw [cf, hfz]⟩
    · exact absurd hc (by simp [(htailf ev hev).1])
  · intro m' hmax' i
    rw [hfm] at hmax
    rw [hmax'] at hmax
    injection hmax with hmax
    subst hmax
    constructor
    · intro hi
      rcases List.mem_append.1 hi with hi | hi
      · rcases List.mem_append.1 hi with hi | hi
        · exact absurd (hstem _ hi).1.2.2 (by simp [Event.is_freeze])
        · obtain ⟨h1, h2⟩ := (hfreeze i).1 hi
          exact ⟨h1, by rw [← hfat]; exact h2⟩
      · exact absurd (htailf _ hi).2 (by simp [Event.is_freeze])
    · intro ⟨h1, h2⟩
      refine List.mem_append.2 (.inl (List.mem_append.2 (.inr ?_)))
      exact (hfreeze i).2 ⟨h1, by rw [hfat]; exact h2⟩

lemma max?_le_of_mem {l : List Nat} {m : Nat} (h : l.max? = some m) :
    m ∈ l ∧ ∀ x ∈ l, x ≤ m := by
  rw [List.max?_eq_some_iff] at h
  · exact h
  all_goals intros
  all_goals first
    | exact Nat.le_refl _
    | exact Nat.max_le ..
    | omega

lemma enum_pairs_spec :
    ∀ (ts : List Tensor) (fms : List Nat) (idx : Nat)
      (ps : List (String × Tensor)),
    enum_pairs fms ts idx = .ok ps →
    ps.map Prod.fst =
      ((fms.drop idx).take ts.length).map
        (fun f => "res" ++ toString f ++ "_sum") ∧
    ps.map Prod.snd = ts := by
  intro ts
  induction ts with
  | nil =>
    intro fms idx ps h
    simp only [enum_pairs] at h
    injection h with h
    subst h
    simp
  | cons t ts ih =>
    intro fms idx ps h
    simp only [enum_pairs] at h
    split at h
    · exact absurd h (by simp)
    · rename_i f hf
      split at h
      · exact absurd h (by simp)
      · rename_i rest hrest
        injection h with h
        subst h
        obtain ⟨ih1, ih2⟩ := ih fms (idx + 1) rest hrest
        have hidxlt : idx < fms.length := by
          by_contra hc
          simp [List.getElem?_eq_none (Nat.le_of_not_lt hc)] at hf
        have hdrop : fms.drop idx = f :: fms.drop (idx + 1) := by
          rw [List.drop_eq_getElem_cons hidxlt]
          simp_all
        refine ⟨?_, by simp [ih2]⟩
        rw [hdrop]
        simp only [List.length_cons, List.take_succ_cons, List.map_cons,
          List.map_cons, ih1]

lemma ordered_dict_go :
    ∀ (l acc : List (String × Tensor)),
    ((acc ++ l).map Prod.fst).Nodup →
    l.foldl
      (fun acc kv =>
        if acc.any (fun p => p.1 = kv.1) then
          acc.map (fun p => if p.1 = kv.1 then (p.1, kv.2) else p)
        else acc ++ [kv]) acc = acc ++ l := by
  intro l
  induction l with
  | nil =>
    intro acc h
    simp
  | cons kv l ih =>
    intro acc h
    have hnot : kv.1 ∉ acc.map Prod.fst := by
      intro hc
      have h2 : (acc.map Prod.fst ++ kv.1 :: l.map Prod.fst).Nodup := by
        simpa using h
      rcases List.nodup_append.1 h2 with ⟨_, _, hdisj⟩
      exact hdisj hc (by simp)
    have hany : acc.any (fun p => p.1 = kv.1) = false := by
      rw [Bool.eq_false_iff]
      intro hc
      obtain ⟨p, hp, hpe⟩ := List.any_eq_true.1 hc
      exact hnot (by
        rw [← of_decide_eq_true hpe]
        exact List.mem_map_of_mem Prod.fst hp)
    rw [List.foldl_cons]
    rw [if_neg (by rw [hany]; simp)]
    have := ih (acc ++ [kv]) (by simpa using h)
    rw [this]
    simp

lemma ordered_dict_eq_self {l : List (String × Tensor)}
    (h : (l.map Prod.fst).Nodup) : ordered_dict l = l := by
  have := ordered_dict_go l [] (by simpa using h)
  simpa [ordered_dict] using this

lemma call_endpoint_mapping {a : Args} {r r' : ResNet} {na : NameAdapter}
    {input : Tensor} {out : CallOut} {evs : List Event}
    (hinit : ResNet.init a = .ok r)
    (hnc : a.num_classes = none)
    (hnd : a.feature_maps.Nodup)
    (hge : ∀ f ∈ a.feature_maps, 2 ≤ f)
    (hcall : r.call na input = .ok (out, r', evs)) :
    ∃ mp m, out = .endpoints mp ∧ a.feature_maps.max? = some m ∧
      r'.curr_stage = m - 1 ∧
      mp.map Prod.fst =
        a.feature_maps.map (fun f => "res" ++ toString f ++ "_sum") ∧
      mp.map (fun p => p.2.chan) =
        ((List.range' 2 (m + 1 - 2)).filter
          (fun i => decide (i ∈ a.feature_maps))).map
          (stage_out_chan a.layers) := by
  have hfields := init_fields hinit
  have hsev : r.severed_head = false := by rw [hfields]
  have hcurr : r.curr_stage = 0 := by rw [hfields]
  have hfm : r.feature_maps = a.feature_maps := by rw [hfields]
  have hlay : r.layers = a.layers := by rw [hfields]
  have hnums : r.num_classes = a.num_classes := by rw [hfields]
  obtain ⟨hfm5, t0, evs0, m, endpoints, res, curr, evs1, hc1, hmax, hcs, hr',
    htail⟩ := call_ok_nonsevered hsev hcall
  rcases htail with ⟨n, hn, _, _⟩ | ⟨_, pairs, hpairs, hout, _⟩
  · rw [hnums, hnc] at hn
    exact absurd hn (by simp)
  obtain ⟨hcurr1, heps, _, _⟩ := call_stages_facts _ _ _ _ _ _ _ _ hcs
  rw [hfm] at hmax hfm5
  rw [hfm, hlay] at heps
  obtain ⟨hmem, hub⟩ := max?_le_of_mem hmax
  have hm2 : 2 ≤ m := hge m hmem
  have hperm :
      ((List.range' 2 (m + 1 - 2)).filter
        (fun i => decide (i ∈ a.feature_maps))).Perm a.feature_maps := by
    apply (List.perm_ext_iff_of_nodup ((List.nodup_range' 2 (m + 1 - 2)).filter _) hnd).2
    intro x
    constructor
    · intro hx
      have := List.mem_filter.1 hx
      exact of_decide_eq_true this.2
    · intro hx
      refine List.mem_filter.2 ⟨?_, decide_eq_true hx⟩
      rw [List.mem_range'_1]
      refine ⟨hge x hx, ?_⟩
      have := hub x hx
      omega
  have hlen :
      ((List.range' 2 (m + 1 - 2)).filter
        (fun i => decide (i ∈ a.feature_maps))).length =
        a.feature_maps.length := hperm.length_eq
  have hepslen : endpoints.length = a.feature_maps.length := by
    rw [heps]
    simpa using hlen
  obtain ⟨hkeys, hvals⟩ := enum_pairs_spec endpoints r.feature_maps 0 pairs hpairs
  rw [hfm] at hkeys
  rw [List.drop_zero, hepslen, List.take_length] at hkeys
  have hinj : ∀ x ∈ a.feature_maps, ∀ y ∈ a.feature_maps,
      ("res" ++ toString x ++ "_sum" : String) =
        "res" ++ toString y ++ "_sum" → x = y := by
    have hd : ∀ x ∈ ([1, 2, 3, 4, 5] : List Nat),
        ∀ y ∈ ([1, 2, 3, 4, 5] : List Nat),
        ("res" ++ toString x ++ "_sum" : String) =
          "res" ++ toString y ++ "_sum" → x = y := by decide
    intro x hx y hy
    exact hd x (hfm5 x hx) y (hfm5 y hy)
  have hodict : ordered_dict pairs = pairs :=
    ordered_dict_eq_self (by rw [hkeys]; exact hnd.map_on hinj)
  refine ⟨ordered_dict pairs, m, hout, hmax, ?_, ?_, ?_⟩
  · rw [hr']
    show curr = m - 1
    rw [hcurr1, List.length_range', hcurr]
    omega
  · rw [hodict, hkeys]
  · rw [hodict]
    have : pairs.map (fun p => p.2.chan) = (pairs.map Prod.snd).map Tensor.chan := by
      rw [List.map_map]
      rfl
    rw [this, hvals, heps]
    simp [List.map_map]

def aC1 : Args := { feature_maps := [5, 2] }

def rC1 : ResNet := { rBase with feature_maps := [5, 2] }

/-- C1 counterexample: with the valid configuration `feature_maps = [5, 2]`,
the call returns a mapping whose entry keyed `res2_sum` holds the
2048-channel stage-5 tensor and whose entry keyed `res5_sum` holds the
256-channel stage-2 tensor, so the entry for stage i is not keyed
`res{i}_sum`; moreover the returned instance differs from the input instance
(`curr_stage` was advanced to 4), so the call is not free of instance-state
mutation. -/
theorem call_purity_labeling_counterexample :
    ResNet.init aC1 = Except.ok rC1 ∧
    stage_out_chan rC1.layers 2 = 256 ∧ stage_out_chan rC1.layers 5 = 2048 ∧
    ∃ out r' evs mp, rC1.call naW { chan := 3 } = Except.ok (out, r', evs) ∧
      r' ≠ rC1 ∧ r'.curr_stage = 4 ∧
      out = CallOut.endpoints mp ∧
      (mp.find? (fun p => p.1 == "res2_sum")).map (fun p => p.2.chan) =
        some 2048 ∧
      (mp.find? (fun p => p.1 == "res5_sum")).map (fun p => p.2.chan) =
        some 256 := by
  refine ⟨rfl, rfl, rfl, _, _, _, _, rfl, ?_, rfl, rfl, rfl, rfl⟩
  decide

/-- C1 (amended): for a valid configuration with `num_classes` unset and
distinct stage indices (all at least 2) in `feature_maps`, the call returns an
ordered mapping with exactly one entry per element of `feature_maps`; the keys
are `res{f}_sum` for f in `feature_maps` in its given order while the values
are the computed stage endpoints in ascending stage order (so the entry for
stage i is keyed `res{i}_sum` precisely when `feature_maps` is ascending); and
the call returns an updated instance whose `curr_stage` was advanced to
`max(feature_maps) - 1`, not the unchanged instance. -/
theorem call_endpoint_mapping_amended :
    ∀ (a : Args) (r r' : ResNet) (na : NameAdapter) (input : Tensor)
      (out : CallOut) (evs : List Event),
      ResNet.init a = .ok r →
      a.num_classes = none →
      a.feature_maps.Nodup →
      (∀ f ∈ a.feature_maps, 2 ≤ f) →
      r.call na input = .ok (out, r', evs) →
      ∃ mp m, out = .endpoints mp ∧ a.feature_maps.max? = some m ∧
        mp.length = a.feature_maps.length ∧
        mp.map Prod.fst =
          a.feature_maps.map (fun f => "res" ++ toString f ++ "_sum") ∧
        mp.map (fun p => p.2.chan) =
          ((List.range' 2 (m + 1 - 2)).filter
            (fun i => decide (i ∈ a.feature_maps))).map
            (stage_out_chan a.layers) ∧
        r'.curr_stage = m - 1 ∧ r'.curr_stage ≠ r.curr_stage := by
  intro a r r' na input out evs hinit hnc hnd hge hcall
  obtain ⟨mp, m, hout, hmax, hcurr', hkeys, hchans⟩ :=
    call_endpoint_mapping hinit hnc hnd hge hcall
  have hm2 : 2 ≤ m := hge m (max?_le_of_mem hmax).1
  have hlen : mp.length = a.feature_maps.length := by
    have := congrArg List.length hkeys
    simpa using this
  have hcurr0 : r.curr_stage = 0 := by rw [init_fields hinit]
  refine ⟨mp, m, hout, hmax, hlen, hkeys, hchans, hcurr', ?_⟩
  rw [hcurr', hcurr0]
  omega

theorem call_endpoint_mapping_amended_witness :
    ∃ r out r' evs, ResNet.init aC1 = Except.ok r ∧
      r.call naW { chan := 3 } = Except.ok (out, r', evs) ∧
      ∃ mp m, out = CallOut.endpoints mp ∧
        aC1.feature_maps.max? = some m ∧
        mp.map Prod.fst =
          aC1.feature_maps.map (fun f => "res" ++ toString f ++ "_sum") := by
  refine ⟨_, _, _, _, rfl, rfl, ?_⟩
  obtain ⟨mp, m, h1, h2, _, h4, _⟩ :=
    call_endpoint_mapping_amended aC1 _ _ naW { chan := 3 } _ _ rfl rfl
      (by decide) (by decide) rfl
  exact ⟨mp, m, h1, h2, h4⟩

/-- C9: `curr_stage` is advanced once per built stage and never reset: with
the default configuration, the first call ends with `curr_stage = 4`, and a
second call on the returned instance fails with an IndexError reading
`lr_mult_list` past its 5 entries — an instance builds its graph safely only
once. -/
theorem curr_stage_single_use :
    ∃ r0 out r1 evs, ResNet.init {} = Except.ok r0 ∧
      r0.curr_stage = 0 ∧
      r0.call naW { chan := 3 } = Except.ok (out, r1, evs) ∧
      r1.curr_stage = 4 ∧
      r1.call naW { chan := 3 } = Except.error "IndexError: lr_mult_list" := by
  exact ⟨_, _, _, _, rfl, rfl, rfl, rfl, rfl⟩

/-- C10: with the default (non-severed) head the endpoint tensors are
collected in ascending stage order while keys follow `feature_maps` in its
user-given order, so the idx-th key is paired with the idx-th endpoint in
ascending stage order and the mapping matches its stage names only when
`feature_maps` is ascending: with `feature_maps = [5, 2]` the stage-2 tensor
(256 channels) is labelled `res5_sum` and the stage-5 tensor (2048 channels)
is labelled `res2_sum`. -/
theorem endpoint_key_order :
    (∀ (a : Args) (r r' : ResNet) (na : NameAdapter) (input : Tensor)
      (out : CallOut) (evs : List Event),
      ResNet.init a = .ok r →
      a.num_classes = none →
      a.feature_maps.Nodup →
      (∀ f ∈ a.feature_maps, 2 ≤ f) →
      r.call na input = .ok (out, r', evs) →
      ∃ mp m, out = .endpoints mp ∧ a.feature_maps.max? = some m ∧
        mp.map Prod.fst =
          a.feature_maps.map (fun f => "res" ++ toString f ++ "_sum") ∧
        mp.map (fun p => p.2.chan) =
          ((List.range' 2 (m + 1 - 2)).filter
            (fun i => decide (i ∈ a.feature_maps))).map
            (stage_out_chan a.layers)) ∧
    (stage_out_chan rC1.layers 2 = 256 ∧ stage_out_chan rC1.layers 5 = 2048 ∧
     ∃ out r' evs mp,
      rC1.call naW { chan := 3 } = Except.ok (out, r', evs) ∧
      out = CallOut.endpoints mp ∧
      mp.map Prod.fst = ["res5_sum", "res2_sum"] ∧
      mp.map (fun p => p.2.chan) = [256, 2048]) := by
  constructor
  · intro a r r' na input out evs hinit hnc hnd hge hcall
    obtain ⟨mp, m, hout, hmax, _, hkeys, hchans⟩ :=
      call_endpoint_mapping hinit hnc hnd hge hcall
    exact ⟨mp, m, hout, hmax, hkeys, hchans⟩
  · exact ⟨rfl, rfl, _, _, _, _, rfl, rfl, rfl, rfl⟩

def aW10 : Args := { layers := 18, feature_maps := [2, 3] }

set_option maxHeartbeats 1000000 in
theorem endpoint_key_order_witness :
    ∃ r out r' evs, ResNet.init aW10 = Except.ok r ∧
      r.call naW { chan := 3 } = Except.ok (out, r', evs) ∧
      ∃ mp m, out = CallOut.endpoints mp ∧
        aW10.feature_maps.max? = some m ∧
        mp.map Prod.fst =
          aW10.feature_maps.map
            (fun f => "res" ++ toString f ++ "_sum") := by
  refine ⟨_, _, _, _, rfl, rfl, ?_⟩
  obtain ⟨mp, m, h1, h2, h3, _⟩ :=
    endpoint_key_order.1 aW10 _ _ naW { chan := 3 } _ _ rfl rfl
      (by decide) (by decide) rfl
  exact ⟨mp, m, h1, h2, h3⟩

def aW7 : Args :=
  { layers := 18, feature_maps := [2], freeze_at := 2, freeze_norm := true }

theorem stage_wiring_lr_freeze_witness :
    ∃ r out r' evs, ResNet.init aW7 = Except.ok r ∧
      r.call naW { chan := 3 } = Except.ok (out, r', evs) ∧
      (Event.freezeStage 2 ∈ evs ↔
        (2 ∈ List.range' 2 (2 + 1 - 2) ∧ ((2 : Nat) : Int) ≤ aW7.freeze_at)) := by
  refine ⟨_, _, _, _, rfl, rfl, ?_⟩
  exact (stage_wiring_lr_freeze aW7 _ _ naW { chan := 3 } _ _ rfl rfl).2 2 rfl 2

def aC8 : Args := { feature_maps := [1, 2] }

def rC8 : ResNet := { rBase with feature_maps := [1, 2] }

/-- C8 counterexample: with the valid configuration `feature_maps = [1, 2]`
and `num_classes` unset, the call returns a mapping with a single entry —
`res1_sum` holding the 256-channel stage-2 tensor — although two stages are
listed in `feature_maps`, so the result is not one tensor per stage listed in
`feature_maps` (stage 1 is never built, yet consumes the first key). -/
theorem output_selection_counterexample :
    ResNet.init aC8 = Except.ok rC8 ∧
    aC8.num_classes = none ∧
    aC8.feature_maps.length = 2 ∧
    ∃ out r' evs mp, rC8.call naW { chan := 3 } = Except.ok (out, r', evs) ∧
      out = CallOut.endpoints mp ∧ mp.length = 1 ∧
      mp.map Prod.fst = ["res1_sum"] ∧
      mp.map (fun p => p.2.chan) = [256] ∧
      stage_out_chan rC8.layers 2 = 256 := by
  exact ⟨rfl, rfl, rfl, _, _, _, _, rfl, rfl, rfl, rfl, rfl, rfl⟩

/-- C8 (amended): output selection: with `num_classes = n` the call returns
the classification head output — a global average pool of the last stage
followed by a fully-connected layer of size n, appearing as the final two
graph nodes — and no endpoint mapping; with `num_classes` unset it returns the
ordered endpoint mapping, which holds exactly one tensor per stage listed in
`feature_maps` (keyed `res{f}_sum` in `feature_maps` order, values the built
endpoints in ascending stage order) whenever the listed stages are distinct
and at least 2. -/
theorem output_selection_amended :
    ∀ (a : Args) (r r' : ResNet) (na : NameAdapter) (input : Tensor)
      (out : CallOut) (evs : List Event),
      ResNet.init a = .ok r →
      r.call na input = .ok (out, r', evs) →
      (∀ n, a.num_classes = some n →
        out = .logits { chan := n } ∧ (∀ mm, out ≠ CallOut.endpoints mm) ∧
        ∃ pre, evs = pre ++ [Event.pool "avg" 0 1 0 true, Event.fcLayer n]) ∧
      (a.num_classes = none → ∃ mm, out = .endpoints mm) ∧
      (a.num_classes = none → a.feature_maps.Nodup →
        (∀ f ∈ a.feature_maps, 2 ≤ f) →
        ∃ mp m, out = .endpoints mp ∧ a.feature_maps.max? = some m ∧
          mp.length = a.feature_maps.length ∧
          mp.map Prod.fst =
            a.feature_maps.map (fun f => "res" ++ toString f ++ "_sum") ∧
          mp.map (fun p => p.2.chan) =
            ((List.range' 2 (m + 1 - 2)).filter
              (fun i => decide (i ∈ a.feature_maps))).map
              (stage_out_chan a.layers)) := by
  intro a r r' na input out evs hinit hcall
  have hfields := init_fields hinit
  have hsev : r.severed_head = false := by rw [hfields]
  have hnums : r.num_classes = a.num_classes := by rw [hfields]
  obtain ⟨_, t0, evs0, m, endpoints, res, curr, evs1, _, _, _, _, htail⟩ :=
    call_ok_nonsevered hsev hcall
  refine ⟨?_, ?_, ?_⟩
  · intro n hn
    rcases htail with ⟨n', hn', hout, hevs⟩ | ⟨hnone, _⟩
    · rw [hnums, hn] at hn'
      injection hn' with hn'
      subst hn'
      exact ⟨hout, by rw [hout]; intro mm hc; exact absurd hc (by simp),
        evs0 ++ evs1, hevs⟩
    · rw [hnums, hn] at hnone
      exact absurd hnone (by simp)
  · intro hn
    rcases htail with ⟨n', hn', _, _⟩ | ⟨_, pairs, _, hout, _⟩
    · rw [hnums, hn] at hn'
      exact absurd hn' (by simp)
    · exact ⟨ordered_dict pairs, hout⟩
  · intro hn hnd hge
    obtain ⟨mp, m', hout, hmax, _, hkeys, hchans⟩ :=
      call_endpoint_mapping hinit hn hnd hge hcall
    have hlen : mp.length = a.feature_maps.length := by
      have := congrArg List.length hkeys
      simpa using this
    exact ⟨mp, m', hout, hmax, hlen, hkeys, hchans⟩

set_option maxHeartbeats 1000000 in
theorem output_selection_amended_witness :
    (ResNet.init a8 = Except.ok r8 ∧
     ∃ out r' evs, r8.call naW { chan := 3 } = Except.ok (out, r', evs) ∧
       out = CallOut.logits { chan := 10 } ∧
       ∃ pre, evs = pre ++ [Event.pool "avg" 0 1 0 true, Event.fcLayer 10]) ∧
    (∃ r out r' evs, ResNet.init aW10 = Except.ok r ∧
      r.call naW { chan := 3 } = Except.ok (out, r', evs) ∧
      ∃ mp m, out = CallOut.endpoints mp ∧
        aW10.feature_maps.max? = some m ∧
        mp.length = aW10.feature_maps.length ∧
        mp.map Prod.fst =
          aW10.feature_maps.map (fun f => "res" ++ toString f ++ "_sum")) := by
  constructor
  · refine ⟨rfl, _, _, _, rfl, ?_⟩
    obtain ⟨hsome, _, _⟩ :=
      output_selection_amended a8 r8 _ naW { chan := 3 } _ _ rfl rfl
    obtain ⟨hout, _, pre, hevs⟩ := hsome 10 rfl
    exact ⟨hout, pre, hevs⟩
  · refine ⟨_, _, _, _, rfl, rfl, ?_⟩
    obtain ⟨_, _, hnone⟩ :=
      output_selection_amended aW10 _ _ naW { chan := 3 } _ _ rfl rfl
    obtain ⟨mp, m, h1, h2, h3, h4, _⟩ := hnone rfl (by decide) (by decide)
    exact ⟨mp, m, h1, h2, h3, h4⟩
